import Mathlib

/-!
Symbol table of the KPL front end (`lab3a/incompleted/symtab.c`).

A shallow embedding of `symtab.c`: the type model, the constant model, the
object constructors, the declaration lists and the scope cursor, followed by
the properties established about them.

Conventions of the embedding.

* The C heap is explicit. Every `Object` and every `Scope` obtained from
  `malloc` lives in a growing table; its address is its index in the table.
  The constructors and the scope operations release no cell, so an address
  that is valid stays valid.
* The destructors are given by the sequence of their calls of `free` and by
  how they end; they leave the tables as they are.
* A pointer field that may hold `NULL`, or that a constructor leaves
  unassigned, is an `Option`; `none` stands for both. A property of the scope
  cursor, which `initSymTab` leaves unassigned, is stated for every content
  of that field (`afterInitSymTab`).
* A tagged C union (a `kind` field followed by a union of attribute records)
  is a sum type; the tag is recovered from the constructor.
* An operation that dereferences a pointer returns `Option`: `none` means the
  pointer it had to follow was null or did not address a cell.
-/

namespace SymTab

/-! ## Type model -/

/-- Modelled from the spec: `symtab.h`, which declares `enum TypeClass`, is not
part of the source tree; the spec names the tags `Int`, `Char` and `Array`.
`TP_OTHER` stands for any further value stored in a `typeClass` field, the
values that reach the `default:` branches of `symtab.c`. -/
inductive TypeClass where
  | TP_INT : TypeClass
  | TP_CHAR : TypeClass
  | TP_ARRAY : TypeClass
  | TP_OTHER (tag : Nat) : TypeClass
  deriving DecidableEq, Repr

/-- Modelled from the spec: `struct Type_` of the absent `symtab.h`, a
`typeClass` tag with the `arraySize` and `elementType` fields that
`symtab.c` reads and writes for `TP_ARRAY` nodes only. A node of another tag
carries no further data that the code ever reads. -/
inductive Type_ where
  | int : Type_
  | char : Type_
  | array (arraySize : Int) (elementType : Type_) : Type_
  | other (tag : Nat) : Type_
  deriving DecidableEq, Repr

/-- The field `type->typeClass`. -/
def Type_.typeClass : Type_ → TypeClass
  | .int => .TP_INT
  | .char => .TP_CHAR
  | .array _ _ => .TP_ARRAY
  | .other tag => .TP_OTHER tag

/-- A type built from `Int`, `Char` and `Array(size, element)` only. -/
def Type_.WellFormed : Type_ → Bool
  | .int => true
  | .char => true
  | .array _ elementType => elementType.WellFormed
  | .other _ => false

/-- Function `makeIntType` (symtab.c:23). -/
def makeIntType : Type_ := .int

/-- Function `makeCharType` (symtab.c:29). -/
def makeCharType : Type_ := .char

/-- Function `makeArrayType` (symtab.c:35). -/
def makeArrayType (arraySize : Int) (elementType : Type_) : Type_ :=
  .array arraySize elementType

/-- Function `duplicateType` (symtab.c:43): the tag is copied first; only a `TP_ARRAY`
node has its size copied and its element duplicated. -/
def duplicateType : Type_ → Type_
  | .int => .int
  | .char => .char
  | .array arraySize elementType => .array arraySize (duplicateType elementType)
  | .other tag => .other tag

/-- Function `compareType` (symtab.c:60): differing tags give 0; then, by the tag of
`type1`: `TP_INT` and `TP_CHAR` give 1; two arrays of differing size give 0
and otherwise the comparison of their elements; any other tag gives 0. -/
def compareType (type1 type2 : Type_) : Int :=
  if type1.typeClass ≠ type2.typeClass then 0
  else
    match type1, type2 with
    | .int, _ => 1
    | .char, _ => 1
    | .array size1 elem1, .array size2 elem2 =>
        if size1 ≠ size2 then 0 else compareType elem1 elem2
    | .array _ _, _ => 0
    | .other _, _ => 0

/-! ## Constant model -/

/-- Modelled from the spec: `struct ConstantValue_` of the absent `symtab.h`,
a `type` tag over a union of `intValue` and `charValue`. -/
inductive ConstantValue where
  | intValue (i : Int) : ConstantValue
  | charValue (ch : Char) : ConstantValue
  | other (tag : Nat) : ConstantValue
  deriving DecidableEq, Repr

/-- Function `makeIntConstant` (symtab.c:93). -/
def makeIntConstant (i : Int) : ConstantValue := .intValue i

/-- Function `makeCharConstant` (symtab.c:100). -/
def makeCharConstant (ch : Char) : ConstantValue := .charValue ch

/-- Function `duplicateConstantValue` (symtab.c:107). -/
def duplicateConstantValue : ConstantValue → ConstantValue
  | .intValue i => .intValue i
  | .charValue ch => .charValue ch
  | .other tag => .other tag

/-! ## Declaration lists -/

/-- Address of an `Object` cell. -/
abbrev ObjRef := Nat

/-- Address of a `Scope` cell. -/
abbrev ScopeRef := Nat

/-- A chain of `ObjectNode` cells, given by the `object` fields in `next`
order; the empty chain is the `NULL` list. -/
abbrev ObjectList := List ObjRef

/-- The loop of `addObject` (symtab.c:257-260), entered on a non-empty chain
whose first cell holds `n`: walk while `n->next != NULL`, then hang the new
cell after the last one. -/
def addObjectLoop (n : ObjRef) : ObjectList → ObjRef → ObjectList
  | [], obj => [n, obj]
  | next :: rest, obj => n :: addObjectLoop next rest obj

/-- Function `addObject` (symtab.c:250): a fresh cell holding `obj` becomes the list
when the list is `NULL`, and is linked after the last cell otherwise. -/
def addObject : ObjectList → ObjRef → ObjectList
  | [], obj => [obj]
  | n :: rest, obj => addObjectLoop n rest obj

/-! ## Object model -/

/-- Modelled from the spec: `enum ObjectKind` of the absent `symtab.h`, one tag
for each kind of entity that `symtab.c` constructs. -/
inductive ObjectKind where
  | OBJ_CONSTANT : ObjectKind
  | OBJ_VARIABLE : ObjectKind
  | OBJ_TYPE : ObjectKind
  | OBJ_FUNCTION : ObjectKind
  | OBJ_PROCEDURE : ObjectKind
  | OBJ_PARAMETER : ObjectKind
  | OBJ_PROGRAM : ObjectKind
  deriving DecidableEq, Repr

/-- Modelled from the spec: `enum ParamKind` of the absent `symtab.h`, the
pass-kind tag of a parameter. -/
inductive ParamKind where
  | PARAM_VALUE : ParamKind
  | PARAM_REFERENCE : ParamKind
  deriving DecidableEq, Repr

/-- Modelled from the spec: the attribute records of the absent `symtab.h`,
with the fields that `symtab.c` accesses (`constAttrs->value`,
`typeAttrs->actualType`, `varAttrs->type`, `varAttrs->scope`,
`funcAttrs->paramList`, `funcAttrs->returnType`, `funcAttrs->scope`,
`procAttrs->paramList`, `procAttrs->scope`, `paramAttrs->kind`,
`paramAttrs->type`, `paramAttrs->funtion`, `progAttrs->scope`). -/
inductive Attrs where
  | constAttrs (value : Option ConstantValue) : Attrs
  | typeAttrs (actualType : Option Type_) : Attrs
  | varAttrs (type : Option Type_) (scope : Option ScopeRef) : Attrs
  | funcAttrs (paramList : ObjectList) (returnType : Option Type_)
      (scope : Option ScopeRef) : Attrs
  | procAttrs (paramList : ObjectList) (scope : Option ScopeRef) : Attrs
  | paramAttrs (kind : ParamKind) (type : Option Type_)
      (funtion : Option ObjRef) : Attrs
  | progAttrs (scope : Option ScopeRef) : Attrs
  deriving DecidableEq, Repr

/-- Modelled from the spec: `struct Object_` of the absent `symtab.h`. The
name is a string; the bound of the `name` buffer is not modelled. -/
structure Object where
  name : String
  attrs : Attrs
  deriving DecidableEq, Repr

/-- The field `obj->kind`, which every constructor sets together with the
attribute record of that kind. -/
def Object.kind (obj : Object) : ObjectKind :=
  match obj.attrs with
  | .constAttrs _ => .OBJ_CONSTANT
  | .typeAttrs _ => .OBJ_TYPE
  | .varAttrs _ _ => .OBJ_VARIABLE
  | .funcAttrs _ _ _ => .OBJ_FUNCTION
  | .procAttrs _ _ => .OBJ_PROCEDURE
  | .paramAttrs _ _ _ => .OBJ_PARAMETER
  | .progAttrs _ => .OBJ_PROGRAM

/-- Modelled from the spec: `struct Scope_` of the absent `symtab.h`. -/
structure Scope where
  objList : ObjectList
  owner : Option ObjRef
  outer : Option ScopeRef
  deriving DecidableEq, Repr

/-- Modelled from the spec: `struct SymTab_` of the absent `symtab.h`. -/
structure Table where
  program : Option ObjRef
  currentScope : Option ScopeRef
  globalObjectList : ObjectList
  deriving DecidableEq, Repr

/-- The memory the operations act on: the `Object` cells, the `Scope` cells,
and the three globals `symtab`, `intType` and `charType` (symtab.c:17-19). -/
structure State where
  objects : List Object
  scopes : List Scope
  symtab : Option Table
  intType : Option Type_
  charType : Option Type_
  deriving DecidableEq, Repr

/-- The memory before any call: no cell, every global null. -/
def State.empty : State :=
  { objects := [], scopes := [], symtab := none, intType := none, charType := none }

/-- A `malloc` of an `Object`: the new cell gets the next free address. -/
def allocObject (obj : Object) (s : State) : ObjRef × State :=
  (s.objects.length, { s with objects := s.objects ++ [obj] })

/-- Overwrite the attribute record of the object at `ref`. -/
def setAttrs (ref : ObjRef) (attrs : Attrs) (s : State) : Option State :=
  match s.objects[ref]? with
  | none => none
  | some obj => some { s with objects := s.objects.set ref { obj with attrs := attrs } }

/-- Function `createScope` (symtab.c:125). -/
def createScope (owner : Option ObjRef) (outer : Option ScopeRef) (s : State) :
    ScopeRef × State :=
  (s.scopes.length,
    { s with scopes := s.scopes ++ [{ objList := [], owner := owner, outer := outer }] })

/-- Function `createProgramObject` (symtab.c:133): the program cell, its scope with the
program as owner and no outer scope, then `symtab->program = program`. -/
def createProgramObject (programName : String) (s : State) : Option (ObjRef × State) :=
  let (program, s1) := allocObject { name := programName, attrs := .progAttrs none } s
  let (scope, s2) := createScope (some program) none s1
  match setAttrs program (.progAttrs (some scope)) s2 with
  | none => none
  | some s3 =>
    match s3.symtab with
    | none => none
    | some tab => some (program, { s3 with symtab := some { tab with program := some program } })

/-- Function `createConstantObject` (symtab.c:144); `value` is left unassigned. -/
def createConstantObject (name : String) (s : State) : ObjRef × State :=
  allocObject { name := name, attrs := .constAttrs none } s

/-- Function `createTypeObject` (symtab.c:152); `actualType` is left unassigned. -/
def createTypeObject (name : String) (s : State) : ObjRef × State :=
  allocObject { name := name, attrs := .typeAttrs none } s

/-- Function `createVariableObject` (symtab.c:160): `scope` is read from
`symtab->currentScope`; `type` is left unassigned. -/
def createVariableObject (name : String) (s : State) : Option (ObjRef × State) :=
  match s.symtab with
  | none => none
  | some tab => some (allocObject { name := name, attrs := .varAttrs none tab.currentScope } s)

/-- Function `createFunctionObject` (symtab.c:169): `paramList = NULL`; `returnType`
and `scope` are left unassigned. -/
def createFunctionObject (name : String) (s : State) : ObjRef × State :=
  allocObject { name := name, attrs := .funcAttrs [] none none } s

/-- Function `createProcedureObject` (symtab.c:178): `paramList = NULL`; `scope` is
left unassigned. -/
def createProcedureObject (name : String) (s : State) : ObjRef × State :=
  allocObject { name := name, attrs := .procAttrs [] none } s

/-- Function `createParameterObject` (symtab.c:187); `type` is left unassigned. -/
def createParameterObject (name : String) (kind : ParamKind) (owner : Option ObjRef)
    (s : State) : ObjRef × State :=
  allocObject { name := name, attrs := .paramAttrs kind none owner } s

/-! ## Field updates made through an object or table pointer -/

/-- The assignment `obj->funcAttrs->returnType = type`. -/
def setReturnType (obj : ObjRef) (type : Type_) (s : State) : Option State :=
  match s.objects[obj]? with
  | some { name := _, attrs := .funcAttrs paramList _ scope } =>
      setAttrs obj (.funcAttrs paramList (some type) scope) s
  | _ => none

/-- The assignment `param->paramAttrs->type = type`. -/
def setParamType (param : ObjRef) (type : Type_) (s : State) : Option State :=
  match s.objects[param]? with
  | some { name := _, attrs := .paramAttrs kind _ funtion } =>
      setAttrs param (.paramAttrs kind (some type) funtion) s
  | _ => none

/-- The call `addObject(&(owner->funcAttrs->paramList), obj)`. -/
def addFuncParam (owner obj : ObjRef) (s : State) : Option State :=
  match s.objects[owner]? with
  | some { name := _, attrs := .funcAttrs paramList returnType scope } =>
      setAttrs owner (.funcAttrs (addObject paramList obj) returnType scope) s
  | _ => none

/-- The call `addObject(&(owner->procAttrs->paramList), obj)`. -/
def addProcParam (owner obj : ObjRef) (s : State) : Option State :=
  match s.objects[owner]? with
  | some { name := _, attrs := .procAttrs paramList scope } =>
      setAttrs owner (.procAttrs (addObject paramList obj) scope) s
  | _ => none

/-- The call `addObject(&(symtab->globalObjectList), obj)`. -/
def addGlobalObject (obj : ObjRef) (s : State) : Option State :=
  match s.symtab with
  | none => none
  | some tab =>
      some { s with symtab := some { tab with globalObjectList := addObject tab.globalObjectList obj } }

/-- The call `addObject(&(scope->objList), obj)`. -/
def addScopeObject (scope : ScopeRef) (obj : ObjRef) (s : State) : Option State :=
  match s.scopes[scope]? with
  | none => none
  | some sc =>
      some { s with scopes := s.scopes.set scope { sc with objList := addObject sc.objList obj } }

/-! ## The symbol table -/

/-- Function `findObject` (symtab.c:264): the body holds no statement, so
control reaches the end of the function without a `return`. The outer `none`
says that no value is returned; a returned `NULL` would be `some none` and a
returned object `some (some ref)`. -/
def findObject (_objList : ObjectList) (_name : String) (_s : State) :
    Option (Option ObjRef) :=
  none

/-- Function `initSymTab` (symtab.c:270): a fresh table whose
`globalObjectList` is `NULL` and whose `program` and `currentScope` are left
unassigned, the five predeclared routines, and the two singleton types. -/
def initSymTab (s : State) : Option State := do
  let s := { s with symtab := some { program := none, currentScope := none, globalObjectList := [] } }
  let (obj, s) := createFunctionObject "READC" s
  let s ← setReturnType obj makeCharType s
  let s ← addGlobalObject obj s
  let (obj, s) := createFunctionObject "READI" s
  let s ← setReturnType obj makeIntType s
  let s ← addGlobalObject obj s
  let (obj, s) := createProcedureObject "WRITEI" s
  let (param, s) := createParameterObject "i" .PARAM_VALUE (some obj) s
  let s ← setParamType param makeIntType s
  let s ← addProcParam obj param s
  let s ← addGlobalObject obj s
  let (obj, s) := createProcedureObject "WRITEC" s
  let (param, s) := createParameterObject "ch" .PARAM_VALUE (some obj) s
  let s ← setParamType param makeCharType s
  let s ← addProcParam obj param s
  let s ← addGlobalObject obj s
  let (obj, s) := createProcedureObject "WRITELN" s
  let s ← addGlobalObject obj s
  some { s with intType := some makeIntType, charType := some makeCharType }

/-- Function `enterBlock` (symtab.c:312). -/
def enterBlock (scope : Option ScopeRef) (s : State) : Option State :=
  match s.symtab with
  | none => none
  | some tab => some { s with symtab := some { tab with currentScope := scope } }

/-- Function `exitBlock` (symtab.c:316). -/
def exitBlock (s : State) : Option State :=
  match s.symtab with
  | none => none
  | some tab =>
    match tab.currentScope with
    | none => none
    | some cur =>
      match s.scopes[cur]? with
      | none => none
      | some sc => some { s with symtab := some { tab with currentScope := sc.outer } }

/-- The `if (obj->kind == OBJ_PARAMETER)` block of `declareObject`
(symtab.c:321-333): the owner of the current scope receives `obj` in its
parameter list when it is a function or a procedure, and nothing happens for
an owner of another kind. -/
def declareParameter (obj : ObjRef) (s : State) : Option State :=
  match s.symtab with
  | none => none
  | some tab =>
    match tab.currentScope with
    | none => none
    | some cur =>
      match s.scopes[cur]? with
      | none => none
      | some sc =>
        match sc.owner with
        | none => none
        | some owner =>
          match s.objects[owner]? with
          | none => none
          | some ownerObj =>
            match ownerObj.kind with
            | .OBJ_FUNCTION => addFuncParam owner obj s
            | .OBJ_PROCEDURE => addProcParam owner obj s
            | _ => some s

/-- Function `declareObject` (symtab.c:320). -/
def declareObject (obj : ObjRef) (s : State) : Option State :=
  match s.objects[obj]? with
  | none => none
  | some o =>
    match (if o.kind = .OBJ_PARAMETER then declareParameter obj s else some s) with
    | none => none
    | some s1 =>
      match s1.symtab with
      | none => none
      | some tab =>
        match tab.currentScope with
        | none => none
        | some cur => addScopeObject cur obj s1

/-! ## Observations and call sequences -/

/-- The parameter list of a function or procedure object (`funcAttrs->paramList`
or `procAttrs->paramList`); an object of another kind has none. -/
def Object.paramList (obj : Object) : ObjectList :=
  match obj.attrs with
  | .funcAttrs paramList _ _ => paramList
  | .procAttrs paramList _ => paramList
  | _ => []

/-- The value of `symtab->currentScope`, when the table exists. -/
def State.currentScope (s : State) : Option ScopeRef :=
  match s.symtab with
  | none => none
  | some tab => tab.currentScope

/-- The state `s` with `symtab->currentScope` replaced by `scope`. -/
def State.withCurrentScope (s : State) (tab : Table) (scope : Option ScopeRef) : State :=
  { s with symtab := some { tab with currentScope := scope } }

/-- The state in which the field `symtab->currentScope` holds `held`. -/
def State.setCurrentScope (s : State) (held : Option ScopeRef) : State :=
  match s.symtab with
  | none => s
  | some tab => { s with symtab := some { tab with currentScope := held } }

/-- Whether `symtab->currentScope` addresses a scope cell. -/
def State.liveCurrentScope (s : State) : Bool :=
  match s.currentScope with
  | none => false
  | some cur => (s.scopes[cur]?).isSome

/-- The calls `enterBlock(S1); ...; enterBlock(Sk)`, in this order. -/
def enterBlocks : List ScopeRef → State → Option State
  | [], s => some s
  | scope :: rest, s => (enterBlock (some scope) s).bind (enterBlocks rest)

/-- The call `exitBlock()` made `k` times. -/
def exitBlocks : Nat → State → Option State
  | 0, s => some s
  | k + 1, s => (exitBlock s).bind (exitBlocks k)

/-- A chain `S1, ..., Sk` of scope cells of `s` above `cur`: the `outer` of
`S1` is `cur` and the `outer` of each following scope is its predecessor. -/
def isScopeChain (s : State) : Option ScopeRef → List ScopeRef → Bool
  | _, [] => true
  | cur, scope :: rest =>
    (match s.scopes[scope]? with
      | none => false
      | some sc => decide (sc.outer = cur)) && isScopeChain s (some scope) rest

/-- The value of `symtab->globalObjectList`, when the table exists. -/
def State.globalObjectList (s : State) : ObjectList :=
  match s.symtab with
  | none => []
  | some tab => tab.globalObjectList

/-- The memory right after `initSymTab`. The call leaves the field
`symtab->currentScope` unassigned (symtab.c:274-275); `held` is what the field
happens to hold, a null pointer, the address of a scope cell or any other
value. -/
def afterInitSymTab (s0 : State) (held : Option ScopeRef) : Option State :=
  (initSymTab s0).map fun s => s.setCurrentScope held

/-- The value of `symtab->program`, when the table exists. -/
def State.program (s : State) : Option ObjRef :=
  match s.symtab with
  | none => none
  | some tab => tab.program

/-! ## The table as a state machine -/

/-- The calls a client makes once the table exists. -/
inductive Op where
  | createProgramObject (programName : String) : Op
  | createConstantObject (name : String) : Op
  | createTypeObject (name : String) : Op
  | createVariableObject (name : String) : Op
  | createFunctionObject (name : String) : Op
  | createProcedureObject (name : String) : Op
  | createParameterObject (name : String) (kind : ParamKind) (owner : Option ObjRef) : Op
  | createScope (owner : Option ObjRef) (outer : Option ScopeRef) : Op
  | declareObject (obj : ObjRef) : Op
  | enterBlock (scope : ScopeRef) : Op
  | exitBlock : Op
  deriving DecidableEq, Repr

/-- The effect of a call on the memory; the value a constructor returns is
dropped. -/
def Op.apply : Op → State → Option State
  | .createProgramObject programName, s => (SymTab.createProgramObject programName s).map Prod.snd
  | .createConstantObject name, s => some (SymTab.createConstantObject name s).2
  | .createTypeObject name, s => some (SymTab.createTypeObject name s).2
  | .createVariableObject name, s => (SymTab.createVariableObject name s).map Prod.snd
  | .createFunctionObject name, s => some (SymTab.createFunctionObject name s).2
  | .createProcedureObject name, s => some (SymTab.createProcedureObject name s).2
  | .createParameterObject name kind owner, s => some (SymTab.createParameterObject name kind owner s).2
  | .createScope owner outer, s => some (SymTab.createScope owner outer s).2
  | .declareObject obj, s => SymTab.declareObject obj s
  | .enterBlock scope, s => SymTab.enterBlock (some scope) s
  | .exitBlock, s => SymTab.exitBlock s

/-- The conditions under which a block is entered or left; `entered` tells
whether an `enterBlock` has been made before. Until then `currentScope` has
never been assigned: `enterBlock(S)` is called on a scope cell `S` that has no
outer scope, and `exitBlock` is not called. From then on `enterBlock(S)` is
called on a scope cell `S` whose `outer` is the current scope, and `exitBlock`
while the current scope is a scope cell that has an outer scope. The other
calls carry no condition. -/
def Op.admissible (entered : Bool) : Op → State → Bool
  | .enterBlock scope, s =>
    match s.scopes[scope]? with
    | none => false
    | some sc => if entered then decide (sc.outer = s.currentScope) else decide (sc.outer = none)
  | .exitBlock, s =>
    entered &&
      (match s.currentScope with
        | none => false
        | some cur =>
          match s.scopes[cur]? with
          | none => false
          | some sc => sc.outer.isSome)
  | _, _ => true

/-- Whether the call is an `enterBlock`. -/
def Op.isEnterBlock : Op → Bool
  | .enterBlock _ => true
  | _ => false

/-- A sequence of admissible calls, each of which completes; `entered` tells
whether an `enterBlock` precedes the sequence. -/
def runOps : Bool → List Op → State → Option State
  | _, [], s => some s
  | entered, op :: rest, s =>
    if op.admissible entered s then
      (op.apply s).bind (runOps (entered || op.isEnterBlock) rest)
    else none

/-- The scopes met from `cur` along the `outer` links are all scope cells of
`s`, down to a null link. -/
inductive LiveChain (s : State) : Option ScopeRef → Prop where
  | null : LiveChain s none
  | scope (cur : ScopeRef) (sc : Scope) :
      s.scopes[cur]? = some sc → LiveChain s sc.outer → LiveChain s (some cur)

/-- Every scope cell of `s` is a scope cell of `t` with the same `outer`. -/
def ScopesExtend (s t : State) : Prop :=
  ∀ (r : ScopeRef) (sc : Scope), s.scopes[r]? = some sc →
    ∃ sc1 : Scope, t.scopes[r]? = some sc1 ∧ sc1.outer = sc.outer

/-- The invariant of the scope cursor: once an `enterBlock` has been made, the
current scope is non-null and the chain of `outer` links from it runs through
scope cells only. Nothing is known of the cursor before. -/
def ScopeInv (entered : Bool) (s : State) : Prop :=
  entered = true → LiveChain s s.currentScope ∧ s.currentScope.isSome = true

/-! ## Dual membership of parameters -/

/-- Whether the object is a function or a procedure. -/
def Object.isRoutine (obj : Object) : Bool :=
  match obj.attrs with
  | .funcAttrs _ _ _ => true
  | .procAttrs _ _ => true
  | _ => false

/-- The object after `addObject` on its parameter list, when it has one. -/
def Object.appendParam (obj : Object) (param : ObjRef) : Object :=
  match obj.attrs with
  | .funcAttrs paramList returnType scope =>
      { obj with attrs := .funcAttrs (paramList ++ [param]) returnType scope }
  | .procAttrs paramList scope => { obj with attrs := .procAttrs (paramList ++ [param]) scope }
  | _ => obj

/-- Whether the address is that of a parameter object of `s`. -/
def State.isParameter (s : State) (ref : ObjRef) : Bool :=
  match s.objects[ref]? with
  | none => false
  | some obj => decide (obj.kind = .OBJ_PARAMETER)

/-- The parameter objects of a declaration list, in list order. -/
def State.parametersOf (s : State) (objList : ObjectList) : ObjectList :=
  objList.filter s.isParameter

/-- Whether the scope agrees with its owner: when the owner is a function or a
procedure, its parameter list is the list of the parameter objects that the
scope declares. -/
def State.dualAt (s : State) (sc : Scope) : Bool :=
  match sc.owner with
  | none => true
  | some owner =>
    match s.objects[owner]? with
    | none => true
    | some ownerObj =>
      !ownerObj.isRoutine || decide (ownerObj.paramList = s.parametersOf sc.objList)

/-- Whether every scope of `s` agrees with its owner. -/
def State.dualMembership (s : State) : Bool :=
  s.scopes.all s.dualAt

/-- The condition on `createScope(owner, outer)` under which a routine has one
body scope, created before any of its parameters: the owner is null, or an
object cell that owns no scope yet and has no parameter yet. The other calls
carry no condition. -/
def Op.freshOwner : Op → State → Bool
  | .createScope none _, _ => true
  | .createScope (some owner) _, s =>
    match s.objects[owner]? with
    | none => false
    | some ownerObj =>
      ownerObj.paramList.isEmpty && s.scopes.all (fun sc => decide (sc.owner ≠ some owner))
  | _, _ => true

/-- A sequence of calls, each of which completes, in which every `createScope`
meets `Op.freshOwner`. -/
def runFresh : List Op → State → Option State
  | [], s => some s
  | op :: rest, s => if op.freshOwner s then (op.apply s).bind (runFresh rest) else none

/-- The invariant behind dual membership: every scope owned by a routine
declares exactly the parameters of the routine's parameter list, no two scopes
have the same owner, and owners and declared objects are object cells. -/
structure DualInv (s : State) : Prop where
  dual : ∀ (r : ScopeRef) (sc : Scope) (f : ObjRef) (fo : Object),
    s.scopes[r]? = some sc → sc.owner = some f → s.objects[f]? = some fo →
      fo.isRoutine = true → fo.paramList = s.parametersOf sc.objList
  unique : ∀ (r1 r2 : ScopeRef) (sc1 sc2 : Scope) (f : ObjRef),
    s.scopes[r1]? = some sc1 → s.scopes[r2]? = some sc2 →
      sc1.owner = some f → sc2.owner = some f → r1 = r2
  ownerLive : ∀ (r : ScopeRef) (sc : Scope) (f : ObjRef),
    s.scopes[r]? = some sc → sc.owner = some f → f < s.objects.length
  declLive : ∀ (r : ScopeRef) (sc : Scope) (o : ObjRef),
    s.scopes[r]? = some sc → o ∈ sc.objList → o < s.objects.length

/-! ## Release of memory -/

/-- A call of `free`, named by what it is applied to. -/
inductive Release where
  | typeNode (type : Type_) : Release
  | constantValue (value : Option ConstantValue) : Release
  | attrs (obj : ObjRef) : Release
  | scopeNode (scope : ScopeRef) : Release
  | object (obj : Option ObjRef) : Release
  | paramKind (kind : ParamKind) : Release
  | table : Release
  deriving DecidableEq, Repr

/-- How far a destructor call got: it returned, it was still running when the
bound on the number of calls was reached, or it followed a null or unassigned
pointer. -/
inductive Halt where
  | returned : Halt
  | running : Halt
  | fault : Halt
  deriving DecidableEq, Repr

/-- The calls of `free` made by a destructor, in order, and how it ended. The
destructors are modelled by this trace only: the memory is left readable, so a
cell released twice shows as two entries. -/
structure Run where
  released : List Release
  halt : Halt
  deriving DecidableEq, Repr

/-- Sequencing of two statements: the second runs only when the first
returned. -/
def Run.andThen (first next : Run) : Run :=
  match first.halt with
  | .returned => { released := first.released ++ next.released, halt := next.halt }
  | _ => first

/-- Function `freeType` (symtab.c:76), with a bound `fuel` on the depth of
nested calls: an `Int` or `Char` node is released; for an array the element is
passed to `freeType` and then the array node itself is passed to `freeType`
again (line 84); a node of another tag is left alone. -/
def freeType : Nat → Type_ → Run
  | 0, _ => { released := [], halt := .running }
  | _ + 1, .int => { released := [.typeNode .int], halt := .returned }
  | _ + 1, .char => { released := [.typeNode .char], halt := .returned }
  | fuel + 1, .array arraySize elementType =>
      (freeType fuel elementType).andThen (freeType fuel (.array arraySize elementType))
  | _ + 1, .other _ => { released := [], halt := .returned }

/-- The call `freeType(p)` on a pointer field `p`. -/
def freeTypePtr (fuel : Nat) : Option Type_ → Run
  | none => { released := [], halt := .fault }
  | some type => freeType fuel type

/-- Function `freeObjectList` (symtab.c:242): the body only initialises the
local `node`. -/
def freeObjectList (_objList : ObjectList) : Run :=
  { released := [], halt := .returned }

/-- Function `freeReferenceList` (symtab.c:246): the body holds no statement. -/
def freeReferenceList (_objList : ObjectList) : Run :=
  { released := [], halt := .returned }

/-- Function `freeScope` (symtab.c:237). -/
def freeScope (scope : Option ScopeRef) (s : State) : Run :=
  match scope with
  | none => { released := [], halt := .fault }
  | some ref =>
    match s.scopes[ref]? with
    | none => { released := [], halt := .fault }
    | some sc =>
      (freeObjectList sc.objList).andThen { released := [.scopeNode ref], halt := .returned }

/-- Function `freeObject` (symtab.c:197). -/
def freeObject (fuel : Nat) (obj : Option ObjRef) (s : State) : Run :=
  match obj with
  | none => { released := [], halt := .fault }
  | some ref =>
    match s.objects[ref]? with
    | none => { released := [], halt := .fault }
    | some o =>
      match o.attrs with
      | .constAttrs value =>
          { released := [.constantValue value, .attrs ref], halt := .returned }
      | .typeAttrs actualType =>
          (freeTypePtr fuel actualType).andThen { released := [.attrs ref], halt := .returned }
      | .varAttrs type _ =>
          (freeTypePtr fuel type).andThen { released := [.attrs ref], halt := .returned }
      | .funcAttrs paramList returnType scope =>
          (((freeReferenceList paramList).andThen (freeTypePtr fuel returnType)).andThen
            (freeScope scope s)).andThen { released := [.attrs ref], halt := .returned }
      | .procAttrs paramList scope =>
          ((freeReferenceList paramList).andThen (freeScope scope s)).andThen
            { released := [.attrs ref], halt := .returned }
      | .paramAttrs kind type funtion =>
          (freeTypePtr fuel type).andThen
            { released := [.object funtion, .paramKind kind, .attrs ref], halt := .returned }
      | .progAttrs scope =>
          (freeScope scope s).andThen { released := [.attrs ref], halt := .returned }

/-- Function `cleanSymTab` (symtab.c:304). -/
def cleanSymTab (fuel : Nat) (s : State) : Run :=
  match s.symtab with
  | none => { released := [], halt := .fault }
  | some tab =>
    ((((freeObject fuel tab.program s).andThen (freeObjectList tab.globalObjectList)).andThen
      { released := [.table], halt := .returned }).andThen
      (freeTypePtr fuel s.intType)).andThen (freeTypePtr fuel s.charType)

/-! ## Sample states -/

/-- The calls `initSymTab(); createProgramObject("PRG");
enterBlock(symtab->program->progAttrs->scope)` from the empty memory: the seven
cells of the predeclared routines are followed by the program at address 7,
whose scope is the scope cell 0. -/
def enteredProgram : Option State := do
  let s ← initSymTab State.empty
  let (_, s) ← createProgramObject "PRG" s
  enterBlock (some 0) s

/-- The state of `enteredProgram` followed by
`createParameterObject("x", PARAM_VALUE, symtab->program)`, whose result is
the object cell 8. -/
def parameterInProgram : Option State :=
  enteredProgram.map fun s => (createParameterObject "x" .PARAM_VALUE (some 7) s).2

/-- A program `PRG` whose scope declares a function `F`; the body scope of `F`
is the current scope and a parameter `x` of `F` exists but is not declared. -/
def functionState : State :=
  { objects :=
      [{ name := "PRG", attrs := .progAttrs (some 0) },
       { name := "F", attrs := .funcAttrs [] (some .int) (some 1) },
       { name := "x", attrs := .paramAttrs .PARAM_VALUE (some .char) (some 1) }],
    scopes :=
      [{ objList := [1], owner := some 0, outer := none },
       { objList := [], owner := some 1, outer := some 0 }],
    symtab := some { program := some 0, currentScope := some 1, globalObjectList := [] },
    intType := some .int,
    charType := some .char }

/-- A program scope (cell 0) with two nested scopes (cells 1 and 2) created
above it; the program scope is the current scope. -/
def nestedState : State :=
  { objects :=
      [{ name := "PRG", attrs := .progAttrs (some 0) },
       { name := "P", attrs := .procAttrs [] (some 1) },
       { name := "Q", attrs := .procAttrs [] (some 2) }],
    scopes :=
      [{ objList := [1], owner := some 0, outer := none },
       { objList := [2], owner := some 1, outer := some 0 },
       { objList := [], owner := some 2, outer := some 1 }],
    symtab := some { program := some 0, currentScope := some 0, globalObjectList := [] },
    intType := some .int,
    charType := some .char }

/-- A run after `initSymTab`: the program is created and its scope entered, a
procedure `P` is declared, its body scope created and entered, a parameter `x`
of `P` declared there, and the body scope left. -/
def sampleRun : List Op :=
  [.createProgramObject "PRG", .enterBlock 0, .createProcedureObject "P", .declareObject 8,
   .createScope (some 8) (some 0), .enterBlock 1,
   .createParameterObject "x" .PARAM_VALUE (some 8), .declareObject 9, .exitBlock]

/-- The memory that `initSymTab` followed by `sampleRun` builds from the empty
memory. -/
def sampleRunResult : State :=
  { objects :=
      [{ name := "READC", attrs := .funcAttrs [] (some .char) none },
       { name := "READI", attrs := .funcAttrs [] (some .int) none },
       { name := "WRITEI", attrs := .procAttrs [3] none },
       { name := "i", attrs := .paramAttrs .PARAM_VALUE (some .int) (some 2) },
       { name := "WRITEC", attrs := .procAttrs [5] none },
       { name := "ch", attrs := .paramAttrs .PARAM_VALUE (some .char) (some 4) },
       { name := "WRITELN", attrs := .procAttrs [] none },
       { name := "PRG", attrs := .progAttrs (some 0) },
       { name := "P", attrs := .procAttrs [9] none },
       { name := "x", attrs := .paramAttrs .PARAM_VALUE none (some 8) }],
    scopes :=
      [{ objList := [8], owner := some 7, outer := none },
       { objList := [9], owner := some 8, outer := some 0 }],
    symtab := some { program := some 7, currentScope := some 0, globalObjectList := [0, 1, 2, 4, 6] },
    intType := some .int,
    charType := some .char }

/-- A run after `initSymTab` in which the function `F` (cell 8) is made the
owner of two scopes (cells 1 and 2) and a parameter `x` of `F` (cell 9) is
declared while the first of them is current. -/
def twoBodyScopes : List Op :=
  [.createProgramObject "PRG", .enterBlock 0, .createFunctionObject "F", .declareObject 8,
   .createScope (some 8) (some 0), .createScope (some 8) (some 0), .enterBlock 1,
   .createParameterObject "x" .PARAM_VALUE (some 8), .declareObject 9]

/-! ## Properties of the type model -/

theorem typeClass_duplicateType (t : Type_) :
    (duplicateType t).typeClass = t.typeClass := by
  cases t <;> rfl

theorem compareType_array (size1 size2 : Int) (elem1 elem2 : Type_) :
    compareType (.array size1 elem1) (.array size2 elem2)
      = if size1 ≠ size2 then 0 else compareType elem1 elem2 := by
  simp [compareType, Type_.typeClass]

theorem compareType_eq_zero_or_one (a b : Type_) :
    compareType a b = 0 ∨ compareType a b = 1 := by
  induction a generalizing b with
  | int => cases b <;> simp [compareType, Type_.typeClass]
  | char => cases b <;> simp [compareType, Type_.typeClass]
  | other tag => cases b <;> simp [compareType, Type_.typeClass]
  | array size elem ih =>
    cases b with
    | array size2 elem2 =>
      rw [compareType_array]
      by_cases h : size = size2
      · simpa [h] using ih elem2
      · simp [h]
    | _ => simp [compareType, Type_.typeClass]

theorem compareType_self_of_wellFormed (t : Type_) (h : t.WellFormed = true) :
    compareType t t = 1 := by
  induction t with
  | int => simp [compareType]
  | char => simp [compareType]
  | other tag => simp [Type_.WellFormed] at h
  | array size elem ih =>
    rw [compareType_array]
    simpa using ih (by simpa [Type_.WellFormed] using h)

theorem eq_of_compareType_eq_one (a b : Type_) (ha : a.WellFormed = true)
    (h : compareType a b = 1) : a = b := by
  induction a generalizing b with
  | int => cases b <;> simp_all [compareType, Type_.typeClass]
  | char => cases b <;> simp_all [compareType, Type_.typeClass]
  | other tag => simp [Type_.WellFormed] at ha
  | array size elem ih =>
    cases b with
    | array size2 elem2 =>
      rw [compareType_array] at h
      by_cases hs : size = size2
      · simp [hs] at h
        rw [hs, ih elem2 (by simpa [Type_.WellFormed] using ha) h]
      · simp [hs] at h
    | _ => simp [compareType, Type_.typeClass] at h

theorem duplicateType_eq (t : Type_) : duplicateType t = t := by
  induction t with
  | array size elem ih => simp [duplicateType, ih]
  | _ => rfl

/-- C1: for every type `t` built from `Int`, `Char` and `Array(size, element)`,
comparing `t` with its duplicate, `compareType t (duplicateType t)`, returns 1. -/
theorem compareType_duplicateType (t : Type_) (h : t.WellFormed = true) :
    compareType t (duplicateType t) = 1 := by
  induction t with
  | int => simp [duplicateType, compareType]
  | char => simp [duplicateType, compareType]
  | other tag => simp [Type_.WellFormed] at h
  | array size elem ih =>
    simp only [duplicateType]
    rw [compareType_array]
    simpa using ih (by simpa [Type_.WellFormed] using h)

theorem compareType_duplicateType_witness :
    (Type_.array 3 (.array 2 .char)).WellFormed = true
      ∧ compareType (.array 3 (.array 2 .char))
          (duplicateType (.array 3 (.array 2 .char))) = 1 :=
  ⟨by decide, compareType_duplicateType (.array 3 (.array 2 .char)) (by decide)⟩

/-- C2: on a first argument whose tag is `Int`, `Char` or `Array`,
`compareType a b` returns 1 exactly when `a` and `b` carry the same tag and,
when both are arrays, have the same size and elements that compare to 1; on
types built from `Int`, `Char` and `Array` only this is equality of the two
trees. Two arrays of one size compare as their elements do, and two arrays of
different sizes compare to 0 whatever their elements are. -/
theorem compareType_structural (a b : Type_)
    (ha : a.typeClass = .TP_INT ∨ a.typeClass = .TP_CHAR ∨ a.typeClass = .TP_ARRAY) :
    (compareType a b = 1 ↔
        a.typeClass = b.typeClass ∧
          ∀ size1 elem1 size2 elem2, a = .array size1 elem1 → b = .array size2 elem2 →
            size1 = size2 ∧ compareType elem1 elem2 = 1)
      ∧ (a.WellFormed = true → (compareType a b = 1 ↔ a = b))
      ∧ (∀ (size : Int) (elem1 elem2 : Type_),
          compareType (.array size elem1) (.array size elem2) = compareType elem1 elem2)
      ∧ (∀ (size1 size2 : Int) (elem1 elem2 : Type_), size1 ≠ size2 →
          compareType (.array size1 elem1) (.array size2 elem2) = 0) := by
  refine ⟨?_, ?_, ?_, ?_⟩
  · cases a with
    | int => cases b <;> simp [compareType, Type_.typeClass]
    | char => cases b <;> simp [compareType, Type_.typeClass]
    | other tag => simp [Type_.typeClass] at ha
    | array size elem =>
      cases b with
      | array size2 elem2 =>
        rw [compareType_array]
        by_cases hs : size = size2
        · simp only [hs, Type_.typeClass, ne_eq, not_true_eq_false, if_false, true_and]
          constructor
          · intro h size1 elem1 size3 elem3 h1 h2
            cases h1
            cases h2
            exact ⟨rfl, h⟩
          · intro h
            exact (h size2 elem size2 elem2 rfl rfl).2
        · simp [hs, Type_.typeClass]
      | _ => simp [compareType, Type_.typeClass]
  · intro hwf
    constructor
    · exact eq_of_compareType_eq_one a b hwf
    · intro hab
      rw [← hab]
      exact compareType_self_of_wellFormed a hwf
  · intro size elem1 elem2
    rw [compareType_array]
    simp
  · intro size1 size2 elem1 elem2 hne
    rw [compareType_array]
    simp [hne]

theorem compareType_structural_witness :
    (compareType (.array 4 .int) (.array 4 .char) = 1 ↔
        (Type_.array 4 .int).typeClass = (Type_.array 4 .char).typeClass ∧
          ∀ size1 elem1 size2 elem2, Type_.array 4 .int = .array size1 elem1 →
            Type_.array 4 .char = .array size2 elem2 →
            size1 = size2 ∧ compareType elem1 elem2 = 1)
      ∧ ((Type_.array 4 .int).WellFormed = true →
          (compareType (.array 4 .int) (.array 4 .char) = 1 ↔
            Type_.array 4 .int = .array 4 .char))
      ∧ (∀ (size : Int) (elem1 elem2 : Type_),
          compareType (.array size elem1) (.array size elem2) = compareType elem1 elem2)
      ∧ (∀ (size1 size2 : Int) (elem1 elem2 : Type_), size1 ≠ size2 →
          compareType (.array size1 elem1) (.array size2 elem2) = 0) :=
  compareType_structural (.array 4 .int) (.array 4 .char) (Or.inr (Or.inr rfl))

/-! ## Properties of the declaration lists -/

theorem addObjectLoop_eq (n : ObjRef) (rest : ObjectList) (obj : ObjRef) :
    addObjectLoop n rest obj = n :: (rest ++ [obj]) := by
  induction rest generalizing n with
  | nil => rfl
  | cons next rest ih => simp [addObjectLoop, ih]

theorem addObject_eq_append (objList : ObjectList) (obj : ObjRef) :
    addObject objList obj = objList ++ [obj] := by
  cases objList with
  | nil => rfl
  | cons n rest => simp [addObject, addObjectLoop_eq]

/-- C3: for every object list `L` and object `o`, `addObject L o` is `L`
followed by `o`: the new element is last, the length grows by exactly one and
every earlier element keeps its position; the empty list becomes `[o]`. -/
theorem addObject_appends (objList : ObjectList) (obj : ObjRef) :
    addObject objList obj = objList ++ [obj]
      ∧ (addObject objList obj).getLast? = some obj
      ∧ (addObject objList obj).length = objList.length + 1
      ∧ (∀ i, i < objList.length → (addObject objList obj)[i]? = objList[i]?)
      ∧ addObject [] obj = [obj] := by
  rw [addObject_eq_append]
  refine ⟨rfl, by simp, by simp, ?_, rfl⟩
  intro i hi
  exact List.getElem?_append_left hi

/-! ## Properties of block entry and exit -/

theorem exitBlocks_succ (k : Nat) (s : State) :
    exitBlocks (k + 1) s = (exitBlocks k s).bind exitBlock := by
  induction k generalizing s with
  | zero =>
    cases h : exitBlock s <;> simp [exitBlocks, h]
  | succ k ih =>
    show (exitBlock s).bind (exitBlocks (k + 1)) = _
    cases h : exitBlock s with
    | none => simp [exitBlocks, h]
    | some s1 =>
      have h1 := ih s1
      simp only [exitBlocks] at h1
      simp only [exitBlocks, h, Option.some_bind]
      exact h1

theorem withCurrentScope_self (s : State) (tab : Table) (h : s.symtab = some tab) :
    s.withCurrentScope tab tab.currentScope = s := by
  cases s
  simp_all [State.withCurrentScope]

theorem isScopeChain_withCurrentScope (s : State) (tab : Table) (scope cur : Option ScopeRef)
    (chain : List ScopeRef) :
    isScopeChain (s.withCurrentScope tab scope) cur chain = isScopeChain s cur chain := by
  induction chain generalizing cur with
  | nil => rfl
  | cons x rest ih =>
    have h := ih (some x)
    simp only [isScopeChain, h]
    rfl

/-- C5: for every chain of scopes `S1, ..., Sk` (`k ≥ 0`) in which the outer
scope of `S1` is the current scope and the outer scope of each `S(i+1)` is
`Si`, the calls `enterBlock(S1)`, ..., `enterBlock(Sk)` followed by `k` calls
of `exitBlock` all complete and leave the state, and so `currentScope`, as it
was before the first `enterBlock`. -/
theorem enterBlocks_exitBlocks (s : State) (tab : Table) (chain : List ScopeRef)
    (htab : s.symtab = some tab)
    (hchain : isScopeChain s tab.currentScope chain = true) :
    (enterBlocks chain s).bind (exitBlocks chain.length) = some s
      ∧ ((enterBlocks chain s).bind (exitBlocks chain.length)).map State.currentScope
          = some s.currentScope := by
  have key : (enterBlocks chain s).bind (exitBlocks chain.length) = some s := by
    induction chain generalizing s tab with
    | nil => rfl
    | cons x rest ih =>
      simp only [isScopeChain, Bool.and_eq_true] at hchain
      obtain ⟨hx, hrest⟩ := hchain
      cases hsc : s.scopes[x]? with
      | none => simp [hsc] at hx
      | some sc =>
        simp only [hsc, decide_eq_true_eq] at hx
        have henter : enterBlock (some x) s = some (s.withCurrentScope tab (some x)) := by
          simp [enterBlock, htab, State.withCurrentScope]
        have hih := ih (s.withCurrentScope tab (some x)) { tab with currentScope := some x }
          rfl (by rw [isScopeChain_withCurrentScope]; exact hrest)
        have hexit : exitBlock (s.withCurrentScope tab (some x)) = some s := by
          have : exitBlock (s.withCurrentScope tab (some x))
              = some (s.withCurrentScope tab sc.outer) := by
            simp [exitBlock, State.withCurrentScope, hsc]
          rw [this, hx, withCurrentScope_self s tab htab]
        simp only [enterBlocks, henter, Option.some_bind, List.length_cons]
        cases hin : enterBlocks rest (s.withCurrentScope tab (some x)) with
        | none => simp [hin] at hih
        | some s2 =>
          simp only [hin, Option.some_bind] at hih ⊢
          rw [exitBlocks_succ, hih, Option.some_bind, hexit]
  exact ⟨key, by rw [key]; rfl⟩

theorem enterBlocks_exitBlocks_witness :
    nestedState.symtab
        = some { program := some 0, currentScope := some 0, globalObjectList := [] }
      ∧ isScopeChain nestedState (some 0) [1, 2] = true
      ∧ (enterBlocks [1, 2] nestedState).bind (exitBlocks 2) = some nestedState
      ∧ ((enterBlocks [1, 2] nestedState).bind (exitBlocks 2)).map State.currentScope
          = some nestedState.currentScope :=
  ⟨rfl, by decide,
    enterBlocks_exitBlocks nestedState
      { program := some 0, currentScope := some 0, globalObjectList := [] } [1, 2] rfl
      (by decide)⟩

/-- C6, as the code has it: in the state reached by `initSymTab`,
`createProgramObject` and `enterBlock` of the program scope, the current scope
has no outer scope, and `exitBlock` completes and leaves `currentScope` null;
no error is raised. -/
theorem exitBlock_program_scope_counterexample :
    enteredProgram.map State.currentScope = some (some 0)
      ∧ enteredProgram.map (fun s => (s.scopes[0]?).map Scope.outer) = some (some none)
      ∧ (enteredProgram.bind exitBlock).isSome = true
      ∧ (enteredProgram.bind exitBlock).map State.currentScope = some none := by
  decide

/-- C6, amended: `exitBlock` called while the current scope has no outer scope
completes normally and sets `currentScope` to null, changing nothing else; no
ScopeUnderflow error is raised. -/
theorem exitBlock_outermost (s : State) (tab : Table) (cur : ScopeRef) (sc : Scope)
    (htab : s.symtab = some tab) (hcur : tab.currentScope = some cur)
    (hsc : s.scopes[cur]? = some sc) (houter : sc.outer = none) :
    exitBlock s = some { s with symtab := some { tab with currentScope := none } } := by
  simp [exitBlock, htab, hcur, hsc, houter]

theorem exitBlock_outermost_witness :
    nestedState.symtab
        = some { program := some 0, currentScope := some 0, globalObjectList := [] }
      ∧ nestedState.scopes[0]? = some { objList := [1], owner := some 0, outer := none }
      ∧ exitBlock nestedState
          = some { nestedState with
              symtab := some { program := some 0, currentScope := none, globalObjectList := [] } } :=
  ⟨rfl, rfl,
    exitBlock_outermost nestedState
      { program := some 0, currentScope := some 0, globalObjectList := [] } 0
      { objList := [1], owner := some 0, outer := none } rfl rfl rfl rfl⟩

/-! ## Properties of `declareObject` -/

theorem getElem?_set_same {α : Type} (l : List α) (i : Nat) (a b : α)
    (h : l[i]? = some a) : (l.set i b)[i]? = some b := by
  have hi : i < l.length := by
    rcases Nat.lt_or_ge i l.length with hlt | hge
    · exact hlt
    · rw [List.getElem?_eq_none hge] at h
      cases h
  simp [List.getElem?_set, hi]

theorem getElem?_append_singleton_iff (l : ObjectList) (p : ObjRef) (hp : p ∉ l) (i : Nat) :
    (l ++ [p])[i]? = some p ↔ i = l.length := by
  constructor
  · intro h
    rcases Nat.lt_trichotomy i l.length with hlt | heq | hgt
    · rw [List.getElem?_append_left hlt] at h
      exact absurd (List.getElem?_mem h) hp
    · exact heq
    · rw [List.getElem?_eq_none (by simp; omega)] at h
      cases h
  · intro h
    subst h
    simp

theorem declareObject_eq_addScopeObject (s s1 : State) (tab : Table) (cur : ScopeRef)
    (p : ObjRef) (po : Object) (hp : s.objects[p]? = some po)
    (hstep : (if po.kind = .OBJ_PARAMETER then declareParameter p s else some s) = some s1)
    (htab : s1.symtab = some tab) (hcur : tab.currentScope = some cur) :
    declareObject p s = addScopeObject cur p s1 := by
  simp only [declareObject, hp, hstep, htab, hcur]

theorem declareParameter_eq (s : State) (tab : Table) (cur : ScopeRef) (sc : Scope)
    (f p : ObjRef) (fo : Object)
    (htab : s.symtab = some tab) (hcur : tab.currentScope = some cur)
    (hsc : s.scopes[cur]? = some sc) (hown : sc.owner = some f)
    (hf : s.objects[f]? = some fo) :
    declareParameter p s =
      match fo.kind with
      | .OBJ_FUNCTION => addFuncParam f p s
      | .OBJ_PROCEDURE => addProcParam f p s
      | _ => some s := by
  simp only [declareParameter, htab, hcur, hsc, hown, hf]

/-- C4: when the owner `f` of the current scope is a function or a procedure
and `p` is a parameter object that occurs neither in the parameter list of `f`
nor in the declaration list of the current scope, `declareObject p` completes
and appends `p` to the end of both lists; `p` then occurs exactly once in
each, at the index that was the length of the list, so at the same index in
both when the two lists had equal length. -/
theorem declareObject_parameter (s : State) (tab : Table) (cur : ScopeRef) (sc : Scope)
    (f p : ObjRef) (fo po : Object)
    (htab : s.symtab = some tab) (hcur : tab.currentScope = some cur)
    (hsc : s.scopes[cur]? = some sc) (hown : sc.owner = some f)
    (hf : s.objects[f]? = some fo)
    (hkind : fo.kind = .OBJ_FUNCTION ∨ fo.kind = .OBJ_PROCEDURE)
    (hp : s.objects[p]? = some po) (hpk : po.kind = .OBJ_PARAMETER)
    (hnewParam : p ∉ fo.paramList) (hnewDecl : p ∉ sc.objList) :
    ∃ (s1 : State) (fo1 : Object) (sc1 : Scope),
      declareObject p s = some s1
        ∧ s1.objects[f]? = some fo1 ∧ s1.scopes[cur]? = some sc1
        ∧ fo1.paramList = fo.paramList ++ [p]
        ∧ sc1.objList = sc.objList ++ [p]
        ∧ fo1.paramList.count p = 1 ∧ sc1.objList.count p = 1
        ∧ (∀ i : Nat, fo1.paramList[i]? = some p ↔ i = fo.paramList.length)
        ∧ (∀ i : Nat, sc1.objList[i]? = some p ↔ i = sc.objList.length)
        ∧ (fo.paramList.length = sc.objList.length →
            ∀ i : Nat, fo1.paramList[i]? = some p ↔ sc1.objList[i]? = some p) := by
  obtain ⟨foName, foAttrs⟩ := fo
  have hcount : ∀ l : ObjectList, p ∉ l → (l ++ [p]).count p = 1 := by
    intro l hl
    simp [List.count_append, List.count_eq_zero_of_not_mem hl]
  have hdecl : ∀ fo1 : Object,
      s.scopes[cur]? = some sc →
      addScopeObject cur p { s with objects := s.objects.set f fo1 }
        = some { s with objects := s.objects.set f fo1,
                        scopes := s.scopes.set cur { sc with objList := sc.objList ++ [p] } } := by
    intro fo1 h
    simp [addScopeObject, h, addObject_eq_append]
  cases foAttrs with
  | funcAttrs paramList returnType scope =>
    simp only [Object.paramList] at hnewParam ⊢
    refine ⟨{ s with
        objects := s.objects.set f { name := foName, attrs := .funcAttrs (paramList ++ [p]) returnType scope },
        scopes := s.scopes.set cur { sc with objList := sc.objList ++ [p] } },
      { name := foName, attrs := .funcAttrs (paramList ++ [p]) returnType scope },
      { sc with objList := sc.objList ++ [p] }, ?_, ?_, ?_, rfl, rfl,
      hcount _ hnewParam, hcount _ hnewDecl,
      getElem?_append_singleton_iff _ p hnewParam,
      getElem?_append_singleton_iff _ p hnewDecl, ?_⟩
    · have hstep : (if po.kind = .OBJ_PARAMETER then declareParameter p s else some s)
          = some { s with objects := s.objects.set f { name := foName, attrs := .funcAttrs (paramList ++ [p]) returnType scope } } := by
        rw [if_pos hpk, declareParameter_eq s tab cur sc f p _ htab hcur hsc hown hf]
        simp [Object.kind, addFuncParam, hf, setAttrs, addObject_eq_append]
      rw [declareObject_eq_addScopeObject s _ tab cur p po hp hstep htab hcur]
      exact hdecl _ hsc
    · exact getElem?_set_same _ _ _ _ hf
    · exact getElem?_set_same _ _ _ _ hsc
    · intro hlen i
      rw [getElem?_append_singleton_iff _ p hnewParam, getElem?_append_singleton_iff _ p hnewDecl,
        hlen]
  | procAttrs paramList scope =>
    simp only [Object.paramList] at hnewParam ⊢
    refine ⟨{ s with
        objects := s.objects.set f { name := foName, attrs := .procAttrs (paramList ++ [p]) scope },
        scopes := s.scopes.set cur { sc with objList := sc.objList ++ [p] } },
      { name := foName, attrs := .procAttrs (paramList ++ [p]) scope },
      { sc with objList := sc.objList ++ [p] }, ?_, ?_, ?_, rfl, rfl,
      hcount _ hnewParam, hcount _ hnewDecl,
      getElem?_append_singleton_iff _ p hnewParam,
      getElem?_append_singleton_iff _ p hnewDecl, ?_⟩
    · have hstep : (if po.kind = .OBJ_PARAMETER then declareParameter p s else some s)
          = some { s with objects := s.objects.set f { name := foName, attrs := .procAttrs (paramList ++ [p]) scope } } := by
        rw [if_pos hpk, declareParameter_eq s tab cur sc f p _ htab hcur hsc hown hf]
        simp [Object.kind, addProcParam, hf, setAttrs, addObject_eq_append]
      rw [declareObject_eq_addScopeObject s _ tab cur p po hp hstep htab hcur]
      exact hdecl _ hsc
    · exact getElem?_set_same _ _ _ _ hf
    · exact getElem?_set_same _ _ _ _ hsc
    · intro hlen i
      rw [getElem?_append_singleton_iff _ p hnewParam, getElem?_append_singleton_iff _ p hnewDecl,
        hlen]
  | _ => simp [Object.kind] at hkind

theorem declareObject_parameter_witness :
    (functionState.objects[1]?.map Object.kind = some .OBJ_FUNCTION
        ∧ functionState.objects[2]?.map Object.kind = some .OBJ_PARAMETER
        ∧ functionState.currentScope = some 1
        ∧ functionState.scopes[1]?.map Scope.owner = some (some 1))
      ∧ ∃ (s1 : State) (fo1 : Object) (sc1 : Scope),
          declareObject 2 functionState = some s1
            ∧ s1.objects[1]? = some fo1 ∧ s1.scopes[1]? = some sc1
            ∧ fo1.paramList = [] ++ [2]
            ∧ sc1.objList = [] ++ [2]
            ∧ fo1.paramList.count 2 = 1 ∧ sc1.objList.count 2 = 1
            ∧ (∀ i : Nat, fo1.paramList[i]? = some 2 ↔ i = 0)
            ∧ (∀ i : Nat, sc1.objList[i]? = some 2 ↔ i = 0)
            ∧ ((0 : Nat) = 0 → ∀ i : Nat, fo1.paramList[i]? = some 2 ↔ sc1.objList[i]? = some 2) :=
  ⟨by decide,
    declareObject_parameter functionState
      { program := some 0, currentScope := some 1, globalObjectList := [] } 1
      { objList := [], owner := some 1, outer := some 0 } 1 2
      { name := "F", attrs := .funcAttrs [] (some .int) (some 1) }
      { name := "x", attrs := .paramAttrs .PARAM_VALUE (some .char) (some 1) }
      rfl rfl rfl rfl rfl (Or.inl rfl) rfl rfl (by simp [Object.paramList]) (by simp)⟩

/-- C7, as the code has it: after `initSymTab`, `createProgramObject`,
`enterBlock` of the program scope and `createParameterObject`, the owner of
the current scope is the program (cell 7) and cell 8 is a parameter;
`declareObject` of that parameter completes, leaves every object cell (so
every parameter list) as it was and puts the parameter in the declaration
list of the program scope. Nothing is reported. -/
theorem declareObject_program_owner_counterexample :
    parameterInProgram.map State.currentScope = some (some 0)
      ∧ parameterInProgram.map (fun s => (s.scopes[0]?).map Scope.owner) = some (some (some 7))
      ∧ parameterInProgram.map (fun s => (s.objects[7]?).map Object.kind)
          = some (some .OBJ_PROGRAM)
      ∧ parameterInProgram.map (fun s => (s.objects[8]?).map Object.kind)
          = some (some .OBJ_PARAMETER)
      ∧ (parameterInProgram.bind (declareObject 8)).isSome = true
      ∧ (parameterInProgram.bind (declareObject 8)).map State.objects
          = parameterInProgram.map State.objects
      ∧ (parameterInProgram.bind (declareObject 8)).map (fun s => (s.scopes[0]?).map Scope.objList)
          = some (some [8]) := by
  decide

/-- C7, amended: `declareObject p` for a parameter `p` while the owner of the
current scope is neither a function nor a procedure completes normally: no
error is reported, no object cell and so no parameter list changes, and `p` is
appended to the declaration list of the current scope. -/
theorem declareObject_other_owner (s : State) (tab : Table) (cur : ScopeRef)
    (sc : Scope) (owner p : ObjRef) (ownerObj po : Object)
    (htab : s.symtab = some tab) (hcur : tab.currentScope = some cur)
    (hsc : s.scopes[cur]? = some sc) (hown : sc.owner = some owner)
    (howner : s.objects[owner]? = some ownerObj)
    (hkind : ownerObj.kind ≠ .OBJ_FUNCTION ∧ ownerObj.kind ≠ .OBJ_PROCEDURE)
    (hp : s.objects[p]? = some po) (hpk : po.kind = .OBJ_PARAMETER) :
    declareObject p s
      = some { s with scopes := s.scopes.set cur { sc with objList := sc.objList ++ [p] } } := by
  have hstep : (if po.kind = .OBJ_PARAMETER then declareParameter p s else some s) = some s := by
    rw [if_pos hpk, declareParameter_eq s tab cur sc owner p _ htab hcur hsc hown howner]
    obtain ⟨h1, h2⟩ := hkind
    cases hk : ownerObj.kind <;> simp_all
  rw [declareObject_eq_addScopeObject s s tab cur p po hp hstep htab hcur]
  simp [addScopeObject, hsc, addObject_eq_append]

theorem declareObject_other_owner_witness :
    (nestedState.objects[0]?.map Object.kind = some .OBJ_PROGRAM
        ∧ nestedState.currentScope = some 0
        ∧ nestedState.scopes[0]?.map Scope.owner = some (some 0))
      ∧ declareObject 3
          { nestedState with
            objects := nestedState.objects
              ++ [{ name := "x", attrs := .paramAttrs .PARAM_VALUE none (some 0) }] }
        = some
          { nestedState with
            objects := nestedState.objects
              ++ [{ name := "x", attrs := .paramAttrs .PARAM_VALUE none (some 0) }],
            scopes := nestedState.scopes.set 0
              { objList := [1] ++ [3], owner := some 0, outer := none } } :=
  ⟨by decide,
    declareObject_other_owner
      { nestedState with
        objects := nestedState.objects
          ++ [{ name := "x", attrs := .paramAttrs .PARAM_VALUE none (some 0) }] }
      { program := some 0, currentScope := some 0, globalObjectList := [] } 0
      { objList := [1], owner := some 0, outer := none } 0 3
      { name := "PRG", attrs := .progAttrs (some 0) }
      { name := "x", attrs := .paramAttrs .PARAM_VALUE none (some 0) }
      rfl rfl rfl rfl rfl (by decide) rfl rfl⟩

/-! ## Properties of `initSymTab` and `findObject` -/

theorem getElem?_append_add {α : Type} (pre l : List α) (k : Nat) :
    (pre ++ l)[pre.length + k]? = l[k]? := by
  rw [List.getElem?_append_right (Nat.le_add_right _ _)]
  simp

theorem getElem?_append_length {α : Type} (pre l : List α) :
    (pre ++ l)[pre.length]? = l[0]? := by
  exact getElem?_append_add pre l 0

theorem set_append_add {α : Type} (pre l : List α) (k : Nat) (y : α) :
    (pre ++ l).set (pre.length + k) y = pre ++ l.set k y := by
  rw [List.set_append]
  simp

theorem set_append_length {α : Type} (pre l : List α) (y : α) :
    (pre ++ l).set pre.length y = pre ++ l.set 0 y := by
  exact set_append_add pre l 0 y

theorem initSymTab_eq (s : State) :
    initSymTab s = some
      { objects := s.objects ++
          [{ name := "READC", attrs := .funcAttrs [] (some .char) none },
           { name := "READI", attrs := .funcAttrs [] (some .int) none },
           { name := "WRITEI", attrs := .procAttrs [s.objects.length + 3] none },
           { name := "i",
             attrs := .paramAttrs .PARAM_VALUE (some .int) (some (s.objects.length + 2)) },
           { name := "WRITEC", attrs := .procAttrs [s.objects.length + 5] none },
           { name := "ch",
             attrs := .paramAttrs .PARAM_VALUE (some .char) (some (s.objects.length + 4)) },
           { name := "WRITELN", attrs := .procAttrs [] none }],
        scopes := s.scopes,
        symtab := some
          { program := none, currentScope := none,
            globalObjectList :=
              [s.objects.length, s.objects.length + 1, s.objects.length + 2,
               s.objects.length + 4, s.objects.length + 6] },
        intType := some .int,
        charType := some .char } := by
  simp [initSymTab, createFunctionObject, createProcedureObject, createParameterObject,
    allocObject, setReturnType, setParamType, addProcParam, addGlobalObject, setAttrs,
    addObject, addObjectLoop, makeIntType, makeCharType, getElem?_append_add,
    getElem?_append_length, set_append_add, set_append_length, Nat.add_assoc,
    List.getElem?_cons_zero, List.getElem?_cons_succ, -List.getElem?_eq_getElem]

/-- C8: `initSymTab` completes from every memory; with `n` the first free
object address, the global object list is then exactly the five cells
`n, n+1, n+2, n+4, n+6`, in this order: the function `READC` without parameter
and with return type char, the function `READI` without parameter and with
return type int, the procedure `WRITEI` whose only parameter is the cell
`n+3`, named `i`, of type int, passed by value and referring back to `WRITEI`,
the procedure `WRITEC` whose only parameter is the cell `n+5`, named `ch`, of
type char, passed by value and referring back to `WRITEC`, and the procedure
`WRITELN` without parameter. -/
theorem initSymTab_builtins (s : State) :
    ∃ s1 : State,
      initSymTab s = some s1
        ∧ s1.globalObjectList
            = [s.objects.length, s.objects.length + 1, s.objects.length + 2,
               s.objects.length + 4, s.objects.length + 6]
        ∧ s1.objects[s.objects.length]?
            = some { name := "READC", attrs := .funcAttrs [] (some .char) none }
        ∧ s1.objects[s.objects.length + 1]?
            = some { name := "READI", attrs := .funcAttrs [] (some .int) none }
        ∧ s1.objects[s.objects.length + 2]?
            = some { name := "WRITEI", attrs := .procAttrs [s.objects.length + 3] none }
        ∧ s1.objects[s.objects.length + 3]?
            = some { name := "i",
                     attrs := .paramAttrs .PARAM_VALUE (some .int) (some (s.objects.length + 2)) }
        ∧ s1.objects[s.objects.length + 4]?
            = some { name := "WRITEC", attrs := .procAttrs [s.objects.length + 5] none }
        ∧ s1.objects[s.objects.length + 5]?
            = some { name := "ch",
                     attrs := .paramAttrs .PARAM_VALUE (some .char) (some (s.objects.length + 4)) }
        ∧ s1.objects[s.objects.length + 6]?
            = some { name := "WRITELN", attrs := .procAttrs [] none } := by
  refine ⟨_, initSymTab_eq s, rfl, ?_, ?_, ?_, ?_, ?_, ?_, ?_⟩
  · simp only [getElem?_append_length, List.getElem?_cons_zero]
  all_goals simp only [getElem?_append_add, List.getElem?_cons_succ, List.getElem?_cons_zero]

/-- C9, on the code: after `initSymTab` from the empty memory the global list
is `[0, 1, 2, 4, 6]` and the cell 2 is the procedure named `WRITEI`, yet
`findObject` on that list returns no value for the name `WRITEI`, and none for
the name `FOO` either: the body of the function is empty. -/
theorem findObject_returns_no_value :
    (initSymTab State.empty).map State.globalObjectList = some [0, 1, 2, 4, 6]
      ∧ (initSymTab State.empty).map (fun s => (s.objects[2]?).map Object.name)
          = some (some "WRITEI")
      ∧ (initSymTab State.empty).map (fun s => findObject s.globalObjectList "WRITEI" s)
          = some none
      ∧ (initSymTab State.empty).map (fun s => findObject s.globalObjectList "FOO" s)
          = some none := by
  decide

/-! ## The scope cursor along a run -/

theorem liveChain_extend {s t : State} (h : ScopesExtend s t) {cur : Option ScopeRef}
    (hc : LiveChain s cur) : LiveChain t cur := by
  induction hc with
  | null => exact .null
  | scope cur sc hsc _ ih =>
    obtain ⟨sc1, h1, h2⟩ := h cur sc hsc
    exact .scope cur sc1 h1 (h2 ▸ ih)

theorem scopesExtend_of_eq {s t : State} (h : t.scopes = s.scopes) : ScopesExtend s t := by
  intro r sc hr
  exact ⟨sc, by rw [h]; exact hr, rfl⟩

theorem scopesExtend_of_append {s t : State} (l : List Scope) (h : t.scopes = s.scopes ++ l) :
    ScopesExtend s t := by
  intro r sc hr
  have hlt : r < s.scopes.length := by
    rcases Nat.lt_or_ge r s.scopes.length with hlt | hge
    · exact hlt
    · rw [List.getElem?_eq_none hge] at hr
      cases hr
  exact ⟨sc, by rw [h, List.getElem?_append_left hlt]; exact hr, rfl⟩

theorem scopesExtend_of_set {s t : State} (cur : ScopeRef) (sc sc1 : Scope)
    (hsc : s.scopes[cur]? = some sc) (houter : sc1.outer = sc.outer)
    (h : t.scopes = s.scopes.set cur sc1) : ScopesExtend s t := by
  intro r sc2 hr
  by_cases hrc : cur = r
  · subst hrc
    rw [hsc] at hr
    cases hr
    exact ⟨sc1, by rw [h]; exact getElem?_set_same _ _ _ _ hsc, houter⟩
  · exact ⟨sc2, by rw [h, List.getElem?_set_ne hrc]; exact hr, rfl⟩

theorem scopeInv_frame {entered : Bool} {s t : State} (hinv : ScopeInv entered s)
    (hext : ScopesExtend s t) (hcur : t.currentScope = s.currentScope) :
    ScopeInv entered t := by
  intro he
  obtain ⟨h1, h2⟩ := hinv he
  exact ⟨by rw [hcur]; exact liveChain_extend hext h1, by rw [hcur]; exact h2⟩

theorem createProgramObject_frame (programName : String) (s : State) (r : ObjRef × State)
    (h : createProgramObject programName s = some r) :
    ScopesExtend s r.2 ∧ r.2.currentScope = s.currentScope := by
  simp only [createProgramObject, allocObject, createScope, setAttrs] at h
  split at h
  · cases h
  · rename_i s3 h3
    split at h3
    · cases h3
    · cases h3
      split at h
      · cases h
      · rename_i tab htab
        cases h
        simp only at htab
        exact ⟨scopesExtend_of_append _ rfl, by simp [State.currentScope, htab]⟩

theorem setAttrs_frame (ref : ObjRef) (attrs : Attrs) (s t : State)
    (h : setAttrs ref attrs s = some t) : t.scopes = s.scopes ∧ t.symtab = s.symtab := by
  simp only [setAttrs] at h
  split at h
  · cases h
  · cases h
    exact ⟨rfl, rfl⟩

theorem addFuncParam_frame (owner obj : ObjRef) (s t : State)
    (h : addFuncParam owner obj s = some t) : t.scopes = s.scopes ∧ t.symtab = s.symtab := by
  simp only [addFuncParam] at h
  split at h
  · exact setAttrs_frame _ _ _ _ h
  · cases h

theorem addProcParam_frame (owner obj : ObjRef) (s t : State)
    (h : addProcParam owner obj s = some t) : t.scopes = s.scopes ∧ t.symtab = s.symtab := by
  simp only [addProcParam] at h
  split at h
  · exact setAttrs_frame _ _ _ _ h
  · cases h

theorem declareParameter_frame (obj : ObjRef) (s t : State)
    (h : declareParameter obj s = some t) : t.scopes = s.scopes ∧ t.symtab = s.symtab := by
  simp only [declareParameter] at h
  repeat' split at h
  all_goals first
    | exact addFuncParam_frame _ _ _ _ h
    | exact addProcParam_frame _ _ _ _ h
    | (cases h; exact ⟨rfl, rfl⟩)
    | cases h

theorem addScopeObject_frame (scope : ScopeRef) (obj : ObjRef) (s t : State)
    (h : addScopeObject scope obj s = some t) :
    ScopesExtend s t ∧ t.symtab = s.symtab := by
  simp only [addScopeObject] at h
  split at h
  · cases h
  · rename_i sc hsc
    cases h
    exact ⟨scopesExtend_of_set scope sc { sc with objList := addObject sc.objList obj } hsc rfl rfl, rfl⟩

theorem scopesExtend_trans {s t u : State} (h1 : ScopesExtend s t) (h2 : ScopesExtend t u) :
    ScopesExtend s u := by
  intro r sc hr
  obtain ⟨sc1, ht, ho1⟩ := h1 r sc hr
  obtain ⟨sc2, hu, ho2⟩ := h2 r sc1 ht
  exact ⟨sc2, hu, ho2.trans ho1⟩

theorem currentScope_of_symtab_eq {s t : State} (h : t.symtab = s.symtab) :
    t.currentScope = s.currentScope := by
  simp [State.currentScope, h]

theorem declareObject_frame (obj : ObjRef) (s t : State)
    (h : declareObject obj s = some t) :
    ScopesExtend s t ∧ t.currentScope = s.currentScope := by
  simp only [declareObject] at h
  split at h
  · cases h
  · rename_i o ho
    split at h
    · cases h
    · rename_i s1 hs1
      have hframe : s1.scopes = s.scopes ∧ s1.symtab = s.symtab := by
        split at hs1
        · exact declareParameter_frame _ _ _ hs1
        · cases hs1
          exact ⟨rfl, rfl⟩
      split at h
      · cases h
      · split at h
        · cases h
        · obtain ⟨hext, hsym⟩ := addScopeObject_frame _ _ _ _ h
          exact ⟨scopesExtend_trans (scopesExtend_of_eq hframe.1) hext,
            currentScope_of_symtab_eq (hsym.trans hframe.2)⟩

theorem scopeInv_step (op : Op) (s t : State) (entered : Bool)
    (hadm : op.admissible entered s = true) (happ : op.apply s = some t)
    (hinv : ScopeInv entered s) :
    ScopeInv (entered || op.isEnterBlock) t := by
  cases op with
  | createProgramObject programName =>
    simp only [Op.apply, Option.map_eq_some'] at happ
    obtain ⟨r, hr, rfl⟩ := happ
    obtain ⟨h1, h2⟩ := createProgramObject_frame programName s r hr
    simp only [Op.isEnterBlock, Bool.or_false]
    exact scopeInv_frame hinv h1 h2
  | createConstantObject name =>
    simp only [Op.apply, createConstantObject, allocObject, Option.some.injEq] at happ
    subst happ
    simp only [Op.isEnterBlock, Bool.or_false]
    exact scopeInv_frame hinv (scopesExtend_of_eq rfl) rfl
  | createTypeObject name =>
    simp only [Op.apply, createTypeObject, allocObject, Option.some.injEq] at happ
    subst happ
    simp only [Op.isEnterBlock, Bool.or_false]
    exact scopeInv_frame hinv (scopesExtend_of_eq rfl) rfl
  | createVariableObject name =>
    simp only [Op.apply, createVariableObject, Option.map_eq_some'] at happ
    obtain ⟨r, hr, rfl⟩ := happ
    split at hr
    · cases hr
    · simp only [allocObject, Option.some.injEq] at hr
      subst hr
      simp only [Op.isEnterBlock, Bool.or_false]
      exact scopeInv_frame hinv (scopesExtend_of_eq rfl) rfl
  | createFunctionObject name =>
    simp only [Op.apply, createFunctionObject, allocObject, Option.some.injEq] at happ
    subst happ
    simp only [Op.isEnterBlock, Bool.or_false]
    exact scopeInv_frame hinv (scopesExtend_of_eq rfl) rfl
  | createProcedureObject name =>
    simp only [Op.apply, createProcedureObject, allocObject, Option.some.injEq] at happ
    subst happ
    simp only [Op.isEnterBlock, Bool.or_false]
    exact scopeInv_frame hinv (scopesExtend_of_eq rfl) rfl
  | createParameterObject name kind owner =>
    simp only [Op.apply, createParameterObject, allocObject, Option.some.injEq] at happ
    subst happ
    simp only [Op.isEnterBlock, Bool.or_false]
    exact scopeInv_frame hinv (scopesExtend_of_eq rfl) rfl
  | createScope owner outer =>
    simp only [Op.apply, createScope, Option.some.injEq] at happ
    subst happ
    simp only [Op.isEnterBlock, Bool.or_false]
    exact scopeInv_frame hinv (scopesExtend_of_append _ rfl) rfl
  | declareObject obj =>
    obtain ⟨h1, h2⟩ := declareObject_frame obj s t happ
    simp only [Op.isEnterBlock, Bool.or_false]
    exact scopeInv_frame hinv h1 h2
  | enterBlock scope =>
    simp only [Op.admissible] at hadm
    split at hadm
    · cases hadm
    · rename_i sc hsc
      simp only [Op.apply, enterBlock] at happ
      split at happ
      · cases happ
      · cases happ
        have hlive : LiveChain s sc.outer := by
          cases entered with
          | false =>
            simp only [Bool.false_eq_true, if_false, decide_eq_true_eq] at hadm
            rw [hadm]
            exact .null
          | true =>
            simp only [if_true, decide_eq_true_eq] at hadm
            rw [hadm]
            exact (hinv rfl).1
        intro _
        refine ⟨?_, by simp [State.currentScope]⟩
        show LiveChain _ (some scope)
        refine .scope scope sc hsc ?_
        refine liveChain_extend ?_ hlive
        exact scopesExtend_of_eq rfl
  | exitBlock =>
    simp only [Op.admissible, Bool.and_eq_true] at hadm
    obtain ⟨hent, hadm⟩ := hadm
    split at hadm
    · cases hadm
    · rename_i cur hcur
      split at hadm
      · cases hadm
      · rename_i sc hsc
        obtain ⟨hchain, _⟩ := hinv hent
        rw [hcur] at hchain
        simp only [Op.apply, exitBlock] at happ
        simp only [State.currentScope] at hcur
        split at hcur
        · cases hcur
        · rename_i tab htab
          simp only [htab, hcur, hsc, Option.some.injEq] at happ
          subst happ
          cases hchain with
          | scope _ sc1 hsc1 hrest =>
            rw [hsc] at hsc1
            cases hsc1
            intro _
            refine ⟨?_, ?_⟩
            · show LiveChain _ sc.outer
              refine liveChain_extend ?_ hrest
              exact scopesExtend_of_eq rfl
            · simpa [State.currentScope] using hadm

theorem scopeInv_run (ops : List Op) (s t : State) (entered : Bool)
    (hinv : ScopeInv entered s) (h : runOps entered ops s = some t) :
    ScopeInv (entered || ops.any Op.isEnterBlock) t := by
  induction ops generalizing s entered with
  | nil =>
    simp only [runOps, Option.some.injEq] at h
    subst h
    simpa using hinv
  | cons op rest ih =>
    simp only [runOps] at h
    split at h
    · rename_i hadm
      cases happ : op.apply s with
      | none => simp [happ] at h
      | some s1 =>
        simp only [happ, Option.some_bind] at h
        have h1 := ih s1 (entered || op.isEnterBlock)
          (scopeInv_step op s s1 entered hadm happ hinv) h
        simpa [List.any_cons, Bool.or_assoc] using h1
    · cases h

theorem liveCurrentScope_of_scopeInv {s : State} (hinv : ScopeInv true s) :
    s.liveCurrentScope = true := by
  obtain ⟨hchain, _⟩ := hinv rfl
  simp only [State.liveCurrentScope]
  cases hcur : s.currentScope with
  | none =>
    rw [hcur] at hchain
    have hsome := (hinv rfl).2
    simp [hcur] at hsome
  | some cur =>
    rw [hcur] at hchain
    cases hchain with
    | scope _ sc hsc _ => simp [hsc]

theorem afterInitSymTab_eq (s0 : State) (held : Option ScopeRef) :
    afterInitSymTab s0 held = some
      { objects := s0.objects ++
          [{ name := "READC", attrs := .funcAttrs [] (some .char) none },
           { name := "READI", attrs := .funcAttrs [] (some .int) none },
           { name := "WRITEI", attrs := .procAttrs [s0.objects.length + 3] none },
           { name := "i",
             attrs := .paramAttrs .PARAM_VALUE (some .int) (some (s0.objects.length + 2)) },
           { name := "WRITEC", attrs := .procAttrs [s0.objects.length + 5] none },
           { name := "ch",
             attrs := .paramAttrs .PARAM_VALUE (some .char) (some (s0.objects.length + 4)) },
           { name := "WRITELN", attrs := .procAttrs [] none }],
        scopes := s0.scopes,
        symtab := some
          { program := none, currentScope := held,
            globalObjectList :=
              [s0.objects.length, s0.objects.length + 1, s0.objects.length + 2,
               s0.objects.length + 4, s0.objects.length + 6] },
        intType := some .int,
        charType := some .char } := by
  simp only [afterInitSymTab, initSymTab_eq, Option.map_some', State.setCurrentScope]

/-- C10, on the code: immediately after `initSymTab` from the empty memory no
scope cell exists, so `currentScope`, which the call has not assigned, is not
a live scope, be it null or any address such as 0 or 7. -/
theorem currentScope_not_live_counterexample :
    (initSymTab State.empty).map State.scopes = some []
      ∧ (afterInitSymTab State.empty none).map State.liveCurrentScope = some false
      ∧ (afterInitSymTab State.empty (some 0)).map State.liveCurrentScope = some false
      ∧ (afterInitSymTab State.empty (some 7)).map State.liveCurrentScope = some false := by
  decide

/-- C10, amended: `initSymTab` creates no scope and does not assign
`currentScope`; whatever that field holds, right after an `initSymTab` called
while no scope exists it is not a live scope. In every state reached from
there by `createProgramObject`, the other object constructors, `createScope`,
`declareObject`, a first `enterBlock(S)` on a scope `S` without outer scope,
later calls `enterBlock(S)` with the outer scope of `S` equal to the current
scope, and calls of `exitBlock` made after an `enterBlock` while the current
scope has an outer scope, `currentScope` is a live scope as soon as an
`enterBlock` has been made. -/
theorem currentScope_live_after_enterBlock (s0 : State) (held : Option ScopeRef)
    (ops : List Op) (s : State)
    (h : (afterInitSymTab s0 held).bind (runOps false ops) = some s) :
    (ops.any Op.isEnterBlock = true → s.liveCurrentScope = true)
      ∧ (s0.scopes = [] →
          (afterInitSymTab s0 held).map State.liveCurrentScope = some false) := by
  rw [afterInitSymTab_eq] at h ⊢
  simp only [Option.some_bind] at h
  refine ⟨?_, ?_⟩
  · intro hany
    have hstart : ScopeInv false
        { objects := s0.objects ++
            [{ name := "READC", attrs := .funcAttrs [] (some .char) none },
             { name := "READI", attrs := .funcAttrs [] (some .int) none },
             { name := "WRITEI", attrs := .procAttrs [s0.objects.length + 3] none },
             { name := "i",
               attrs := .paramAttrs .PARAM_VALUE (some .int) (some (s0.objects.length + 2)) },
             { name := "WRITEC", attrs := .procAttrs [s0.objects.length + 5] none },
             { name := "ch",
               attrs := .paramAttrs .PARAM_VALUE (some .char) (some (s0.objects.length + 4)) },
             { name := "WRITELN", attrs := .procAttrs [] none }],
          scopes := s0.scopes,
          symtab := some
            { program := none, currentScope := held,
              globalObjectList :=
                [s0.objects.length, s0.objects.length + 1, s0.objects.length + 2,
                 s0.objects.length + 4, s0.objects.length + 6] },
          intType := some .int,
          charType := some .char } := by
      intro hfalse
      cases hfalse
    have hinv := scopeInv_run ops _ s false hstart h
    rw [hany] at hinv
    exact liveCurrentScope_of_scopeInv hinv
  · intro hs0
    simp only [Option.map_some', State.liveCurrentScope, State.currentScope, hs0]
    cases held <;> simp

theorem currentScope_live_after_enterBlock_witness :
    (afterInitSymTab State.empty (some 5)).bind (runOps false sampleRun) = some sampleRunResult
      ∧ (sampleRun.any Op.isEnterBlock = true → sampleRunResult.liveCurrentScope = true)
      ∧ (State.empty.scopes = [] →
          (afterInitSymTab State.empty (some 5)).map State.liveCurrentScope = some false) :=
  ⟨by decide,
    currentScope_live_after_enterBlock State.empty (some 5) sampleRun sampleRunResult
      (by decide)⟩

/-! ## Properties of `createProgramObject` -/

/-- C15: once the table exists, `createProgramObject(name)` completes and
returns a new object of kind Program with the given name; its scope is a new
scope with an empty declaration list, no outer scope and the program itself as
owner; `symtab->program` becomes that object, while the global object list,
the current scope and every earlier cell are left as they were. -/
theorem createProgramObject_root (programName : String) (s : State) (tab : Table)
    (htab : s.symtab = some tab) :
    ∃ (program : ObjRef) (scope : ScopeRef) (s1 : State),
      createProgramObject programName s = some (program, s1)
        ∧ s1.objects[program]? = some { name := programName, attrs := .progAttrs (some scope) }
        ∧ (s1.objects[program]?).map Object.kind = some .OBJ_PROGRAM
        ∧ s1.scopes[scope]? = some { objList := [], owner := some program, outer := none }
        ∧ s1.symtab = some { tab with program := some program }
        ∧ s1.globalObjectList = s.globalObjectList
        ∧ s1.currentScope = s.currentScope
        ∧ s1.objects = s.objects ++ [{ name := programName, attrs := .progAttrs (some scope) }]
        ∧ s1.scopes = s.scopes ++ [{ objList := [], owner := some program, outer := none }] := by
  refine ⟨s.objects.length, s.scopes.length,
    { s with
      objects := s.objects ++ [{ name := programName, attrs := .progAttrs (some s.scopes.length) }],
      scopes := s.scopes ++ [{ objList := [], owner := some s.objects.length, outer := none }],
      symtab := some { tab with program := some s.objects.length } },
    ?_, ?_, ?_, ?_, rfl, ?_, ?_, rfl, rfl⟩
  · simp [createProgramObject, allocObject, createScope, setAttrs, htab, getElem?_append_length,
      set_append_length, List.getElem?_cons_zero, -List.getElem?_eq_getElem]
  · simp only [getElem?_append_length, List.getElem?_cons_zero]
  · simp only [getElem?_append_length, List.getElem?_cons_zero, Option.map_some']
    rfl
  · simp only [getElem?_append_length, List.getElem?_cons_zero]
  · simp [State.globalObjectList, htab]
  · simp [State.currentScope, htab]

theorem createProgramObject_root_witness :
    nestedState.symtab
        = some { program := some 0, currentScope := some 0, globalObjectList := [] }
      ∧ ∃ (program : ObjRef) (scope : ScopeRef) (s1 : State),
          createProgramObject "MAIN" nestedState = some (program, s1)
            ∧ s1.objects[program]? = some { name := "MAIN", attrs := .progAttrs (some scope) }
            ∧ (s1.objects[program]?).map Object.kind = some .OBJ_PROGRAM
            ∧ s1.scopes[scope]? = some { objList := [], owner := some program, outer := none }
            ∧ s1.symtab
                = some { program := some program, currentScope := some 0, globalObjectList := [] }
            ∧ s1.globalObjectList = nestedState.globalObjectList
            ∧ s1.currentScope = nestedState.currentScope
            ∧ s1.objects
                = nestedState.objects ++ [{ name := "MAIN", attrs := .progAttrs (some scope) }]
            ∧ s1.scopes
                = nestedState.scopes ++ [{ objList := [], owner := some program, outer := none }] :=
  ⟨rfl,
    createProgramObject_root "MAIN" nestedState
      { program := some 0, currentScope := some 0, globalObjectList := [] } rfl⟩

/-! ## Unknown tags and constants -/

/-- C16: `compareType` returns 0 whenever one of its arguments carries a tag
other than `Int`, `Char` and `Array`; this includes two arguments with the
same unknown tag and an argument compared with itself. -/
theorem compareType_unknown_tag (a b : Type_)
    (h : (∃ tag, a.typeClass = .TP_OTHER tag) ∨ (∃ tag, b.typeClass = .TP_OTHER tag)) :
    compareType a b = 0 := by
  rcases h with ⟨tag, ha⟩ | ⟨tag, hb⟩
  · cases a <;> simp [Type_.typeClass] at ha
    cases b <;> simp [compareType, Type_.typeClass]
  · cases b <;> simp [Type_.typeClass] at hb
    cases a <;> simp [compareType, Type_.typeClass]

theorem compareType_unknown_tag_witness :
    ((∃ tag, (Type_.other 7).typeClass = .TP_OTHER tag)
        ∨ (∃ tag, (Type_.other 7).typeClass = .TP_OTHER tag))
      ∧ compareType (.other 7) (.other 7) = 0 :=
  ⟨Or.inl ⟨7, rfl⟩, compareType_unknown_tag (.other 7) (.other 7) (Or.inl ⟨7, rfl⟩)⟩

/-- C17: for every integer `i` and character `ch`, the duplicate of
`makeIntConstant i` is the integer constant of value `i` and the duplicate of
`makeCharConstant ch` is the character constant of value `ch`; the duplicate
of an `Int` or `Char` constant has the tag and the payload of the original. -/
theorem duplicateConstantValue_make (i : Int) (ch : Char) :
    duplicateConstantValue (makeIntConstant i) = .intValue i
      ∧ duplicateConstantValue (makeCharConstant ch) = .charValue ch
      ∧ duplicateConstantValue (.intValue i) = .intValue i
      ∧ duplicateConstantValue (.charValue ch) = .charValue ch :=
  ⟨rfl, rfl, rfl, rfl⟩

/-! ## Frame properties -/

/-- C18: for every object `o` that is not a parameter (a constant, a type, a
variable, a function, a procedure or a program), `declareObject o` completes
and changes only the declaration list of the current scope, which becomes the
old list followed by `o`; the current scope cursor, the program root, the
global object list, every other scope and every object cell, hence every
parameter list, are unchanged. -/
theorem declareObject_non_parameter (s : State) (tab : Table) (cur : ScopeRef) (sc : Scope)
    (o : ObjRef) (oo : Object)
    (htab : s.symtab = some tab) (hcur : tab.currentScope = some cur)
    (hsc : s.scopes[cur]? = some sc) (ho : s.objects[o]? = some oo)
    (hkind : oo.kind ≠ .OBJ_PARAMETER) :
    ∃ s1 : State,
      declareObject o s = some s1
        ∧ s1.scopes[cur]? = some { sc with objList := sc.objList ++ [o] }
        ∧ (∀ r : Nat, r ≠ cur → s1.scopes[r]? = s.scopes[r]?)
        ∧ s1.scopes.length = s.scopes.length
        ∧ s1.objects = s.objects
        ∧ s1.currentScope = s.currentScope
        ∧ s1.program = s.program
        ∧ s1.globalObjectList = s.globalObjectList
        ∧ s1.symtab = s.symtab ∧ s1.intType = s.intType ∧ s1.charType = s.charType := by
  have hstep : (if oo.kind = .OBJ_PARAMETER then declareParameter o s else some s) = some s := by
    rw [if_neg hkind]
  refine ⟨{ s with scopes := s.scopes.set cur { sc with objList := sc.objList ++ [o] } },
    ?_, ?_, ?_, ?_, rfl, rfl, rfl, rfl, rfl, rfl, rfl⟩
  · rw [declareObject_eq_addScopeObject s s tab cur o oo ho hstep htab hcur]
    simp [addScopeObject, hsc, addObject_eq_append]
  · exact getElem?_set_same _ _ _ _ hsc
  · intro r hr
    exact List.getElem?_set_ne (Ne.symm hr)
  · simp

theorem declareObject_non_parameter_witness :
    (nestedState.symtab
        = some { program := some 0, currentScope := some 0, globalObjectList := [] }
      ∧ nestedState.scopes[0]? = some { objList := [1], owner := some 0, outer := none }
      ∧ (nestedState.objects[2]?).map Object.kind = some .OBJ_PROCEDURE)
      ∧ ∃ s1 : State,
          declareObject 2 nestedState = some s1
            ∧ s1.scopes[0]? = some { objList := [1] ++ [2], owner := some 0, outer := none }
            ∧ (∀ r : Nat, r ≠ 0 → s1.scopes[r]? = nestedState.scopes[r]?)
            ∧ s1.scopes.length = nestedState.scopes.length
            ∧ s1.objects = nestedState.objects
            ∧ s1.currentScope = nestedState.currentScope
            ∧ s1.program = nestedState.program
            ∧ s1.globalObjectList = nestedState.globalObjectList
            ∧ s1.symtab = nestedState.symtab ∧ s1.intType = nestedState.intType
            ∧ s1.charType = nestedState.charType :=
  ⟨by decide,
    declareObject_non_parameter nestedState
      { program := some 0, currentScope := some 0, globalObjectList := [] } 0
      { objList := [1], owner := some 0, outer := none } 2
      { name := "Q", attrs := .procAttrs [] (some 2) } rfl rfl rfl rfl (by decide)⟩

/-- C19: for every scope cell `S`, `enterBlock(S)` followed by `exitBlock()`
completes and leaves `currentScope` equal to the outer scope of `S`, whatever
the current scope was before; the previous current scope is restored exactly
when it was the outer scope of `S`; neither call changes an object cell (so a
parameter list), a scope cell (so a declaration list), the program root or the
global object list. -/
theorem enterBlock_exitBlock (s : State) (tab : Table) (scope : ScopeRef) (sc : Scope)
    (htab : s.symtab = some tab) (hsc : s.scopes[scope]? = some sc) :
    ∃ s1 s2 : State,
      enterBlock (some scope) s = some s1 ∧ exitBlock s1 = some s2
        ∧ s1.currentScope = some scope
        ∧ s2.currentScope = sc.outer
        ∧ (s2.currentScope = s.currentScope ↔ sc.outer = s.currentScope)
        ∧ s1.objects = s.objects ∧ s2.objects = s.objects
        ∧ s1.scopes = s.scopes ∧ s2.scopes = s.scopes
        ∧ s1.program = s.program ∧ s2.program = s.program
        ∧ s1.globalObjectList = s.globalObjectList
        ∧ s2.globalObjectList = s.globalObjectList := by
  refine ⟨s.withCurrentScope tab (some scope), s.withCurrentScope tab sc.outer,
    ?_, ?_, rfl, rfl, ?_, rfl, rfl, rfl, rfl, ?_, ?_, ?_, ?_⟩
  · simp [enterBlock, htab, State.withCurrentScope]
  · simp [exitBlock, State.withCurrentScope, hsc]
  · exact Iff.of_eq rfl
  all_goals simp [State.program, State.globalObjectList, State.withCurrentScope, htab]

theorem enterBlock_exitBlock_witness :
    (nestedState.symtab
        = some { program := some 0, currentScope := some 0, globalObjectList := [] }
      ∧ nestedState.scopes[2]? = some { objList := [], owner := some 2, outer := some 1 })
      ∧ ∃ s1 s2 : State,
          enterBlock (some 2) nestedState = some s1 ∧ exitBlock s1 = some s2
            ∧ s1.currentScope = some 2
            ∧ s2.currentScope = some 1
            ∧ (s2.currentScope = nestedState.currentScope ↔ some 1 = nestedState.currentScope)
            ∧ s1.objects = nestedState.objects ∧ s2.objects = nestedState.objects
            ∧ s1.scopes = nestedState.scopes ∧ s2.scopes = nestedState.scopes
            ∧ s1.program = nestedState.program ∧ s2.program = nestedState.program
            ∧ s1.globalObjectList = nestedState.globalObjectList
            ∧ s2.globalObjectList = nestedState.globalObjectList :=
  ⟨by decide,
    enterBlock_exitBlock nestedState
      { program := some 0, currentScope := some 0, globalObjectList := [] } 2
      { objList := [], owner := some 2, outer := some 1 } rfl rfl⟩

/-! ## The destructors -/

theorem halt_andThen (first next : Run) :
    (first.andThen next).halt = if first.halt = .returned then next.halt else first.halt := by
  cases hf : first.halt <;> simp [Run.andThen, hf]

/-- C12, on the code: `freeType` never returns on an array node, whatever the
bound on nested calls: after the element it is applied to the same array node
again. On `Array(1, Int)` with bound 5 the element node is released four
times, the array node is not released, and the call is still running. -/
theorem freeType_array_never_returns :
    (∀ (fuel : Nat) (arraySize : Int) (elementType : Type_),
        (freeType fuel (.array arraySize elementType)).halt ≠ .returned)
      ∧ freeType 5 (.array 1 .int)
          = { released := [.typeNode .int, .typeNode .int, .typeNode .int, .typeNode .int],
              halt := .running } := by
  refine ⟨?_, by decide⟩
  intro fuel arraySize elementType
  induction fuel with
  | zero => simp [freeType]
  | succ fuel ih =>
    simp only [freeType, halt_andThen]
    split
    · exact ih
    · assumption

/-- C13, on the code: after `initSymTab` from the empty memory, cell 3 is the
parameter `i` of the procedure `WRITEI` (cell 2, an entry of the global list).
`freeObject` on that parameter releases its type node, then calls `free` on
the back-reference to `WRITEI` and on the pass-kind tag, and then releases the
attribute record. -/
theorem freeObject_parameter_releases_owner :
    (initSymTab State.empty).map (fun s => (s.objects[3]?).map Object.attrs)
        = some (some (.paramAttrs .PARAM_VALUE (some .int) (some 2)))
      ∧ (initSymTab State.empty).map (fun s => (s.objects[2]?).map Object.name)
        = some (some "WRITEI")
      ∧ (initSymTab State.empty).map State.globalObjectList = some [0, 1, 2, 4, 6]
      ∧ (initSymTab State.empty).map (freeObject 5 (some 3))
        = some { released := [.typeNode .int, .object (some 2), .paramKind .PARAM_VALUE, .attrs 3],
                 halt := .returned } := by
  decide

/-- C14, on the code: in the memory built by `sampleRun` the program scope
(cell 0) declares the procedure `P` (cell 8) and the body scope of `P` (cell
1) declares the parameter `x` (cell 9). `freeScope` on either scope releases
the scope node and nothing else, and `cleanSymTab` releases the program scope,
the attribute record of the program, the table and the two singleton types:
no entity of a declaration list or of the global list is destroyed. -/
theorem freeScope_destroys_no_entity :
    (sampleRunResult.scopes[0]?).map Scope.objList = some [8]
      ∧ (sampleRunResult.scopes[1]?).map Scope.objList = some [9]
      ∧ sampleRunResult.globalObjectList = [0, 1, 2, 4, 6]
      ∧ freeScope (some 0) sampleRunResult
          = { released := [.scopeNode 0], halt := .returned }
      ∧ freeScope (some 1) sampleRunResult
          = { released := [.scopeNode 1], halt := .returned }
      ∧ cleanSymTab 5 sampleRunResult
          = { released := [.scopeNode 0, .attrs 7, .table, .typeNode .int, .typeNode .char],
              halt := .returned } := by
  decide

/-! ## Dual membership along a run -/

theorem isParameter_congr {s t : State} {o : ObjRef} (h : t.objects[o]? = s.objects[o]?) :
    t.isParameter o = s.isParameter o := by
  simp only [State.isParameter, h]

theorem parametersOf_congr {s t : State} (objList : ObjectList)
    (h : ∀ o, o ∈ objList → t.objects[o]? = s.objects[o]?) :
    t.parametersOf objList = s.parametersOf objList := by
  unfold State.parametersOf
  apply List.filter_congr
  intro o ho
  exact isParameter_congr (h o ho)

theorem lt_length_of_getElem? {α : Type} {l : List α} {i : Nat} {a : α}
    (h : l[i]? = some a) : i < l.length := by
  rcases Nat.lt_or_ge i l.length with hlt | hge
  · exact hlt
  · rw [List.getElem?_eq_none hge] at h
    cases h

theorem getElem?_append_singleton_cases {α : Type} {l : List α} {x a : α} {i : Nat}
    (h : (l ++ [x])[i]? = some a) : l[i]? = some a ∨ (i = l.length ∧ a = x) := by
  rcases Nat.lt_or_ge i l.length with hlt | hge
  · left
    rw [List.getElem?_append_left hlt] at h
    exact h
  · right
    have hi := lt_length_of_getElem? h
    simp only [List.length_append, List.length_singleton] at hi
    have heq : i = l.length := by omega
    subst heq
    rw [getElem?_append_length, List.getElem?_cons_zero] at h
    cases h
    exact ⟨rfl, rfl⟩

theorem dualInv_append_objects (s t : State) (l : List Object)
    (hobj : t.objects = s.objects ++ l) (hsc : t.scopes = s.scopes) (h : DualInv s) :
    DualInv t := by
  have hget : ∀ o, o < s.objects.length → t.objects[o]? = s.objects[o]? := by
    intro o ho
    rw [hobj, List.getElem?_append_left ho]
  have hlen : s.objects.length ≤ t.objects.length := by
    rw [hobj, List.length_append]
    exact Nat.le_add_right _ _
  constructor
  · intro r sc f fo hr hown hf hrout
    rw [hsc] at hr
    rw [hget f (h.ownerLive r sc f hr hown)] at hf
    rw [h.dual r sc f fo hr hown hf hrout]
    exact (parametersOf_congr sc.objList (fun o ho => hget o (h.declLive r sc o hr ho))).symm
  · intro r1 r2 sc1 sc2 f h1 h2 ho1 ho2
    rw [hsc] at h1 h2
    exact h.unique r1 r2 sc1 sc2 f h1 h2 ho1 ho2
  · intro r sc f hr hown
    rw [hsc] at hr
    exact Nat.lt_of_lt_of_le (h.ownerLive r sc f hr hown) hlen
  · intro r sc o hr ho
    rw [hsc] at hr
    exact Nat.lt_of_lt_of_le (h.declLive r sc o hr ho) hlen

theorem dualInv_append_scope (s t : State) (owner : Option ObjRef) (outer : Option ScopeRef)
    (hobj : t.objects = s.objects)
    (hsc : t.scopes = s.scopes ++ [{ objList := [], owner := owner, outer := outer }])
    (hlive : ∀ f, owner = some f → f < s.objects.length)
    (hnone : ∀ f, owner = some f → ∀ (r : ScopeRef) (sc : Scope),
      s.scopes[r]? = some sc → sc.owner ≠ some f)
    (hempty : ∀ f, owner = some f → ∀ fo : Object, s.objects[f]? = some fo →
      fo.isRoutine = true → fo.paramList = [])
    (h : DualInv s) : DualInv t := by
  have hpar : ∀ objList : ObjectList, t.parametersOf objList = s.parametersOf objList := by
    intro objList
    exact parametersOf_congr objList (fun o _ => by rw [hobj])
  constructor
  · intro r sc f fo hr hown hf hrout
    rw [hsc] at hr
    rw [hobj] at hf
    rw [hpar]
    rcases getElem?_append_singleton_cases hr with hold | ⟨_, hnew⟩
    · exact h.dual r sc f fo hold hown hf hrout
    · subst hnew
      simp only at hown
      rw [hempty f hown fo hf hrout]
      rfl
  · intro r1 r2 sc1 sc2 f h1 h2 ho1 ho2
    rw [hsc] at h1 h2
    rcases getElem?_append_singleton_cases h1 with hold1 | ⟨hr1, hnew1⟩
    · rcases getElem?_append_singleton_cases h2 with hold2 | ⟨hr2, hnew2⟩
      · exact h.unique r1 r2 sc1 sc2 f hold1 hold2 ho1 ho2
      · subst hnew2
        exact absurd ho1 (hnone f ho2 r1 sc1 hold1)
    · rcases getElem?_append_singleton_cases h2 with hold2 | ⟨hr2, hnew2⟩
      · subst hnew1
        exact absurd ho2 (hnone f ho1 r2 sc2 hold2)
      · rw [hr1, hr2]
  · intro r sc f hr hown
    rw [hsc] at hr
    rw [hobj]
    rcases getElem?_append_singleton_cases hr with hold | ⟨_, hnew⟩
    · exact h.ownerLive r sc f hold hown
    · subst hnew
      exact hlive f hown
  · intro r sc o hr ho
    rw [hsc] at hr
    rw [hobj]
    rcases getElem?_append_singleton_cases hr with hold | ⟨_, hnew⟩
    · exact h.declLive r sc o hold ho
    · subst hnew
      simp at ho

theorem set_eq_self_of_getElem? {α : Type} (l : List α) (i : Nat) (a : α)
    (h : l[i]? = some a) : l.set i a = l := by
  induction l generalizing i with
  | nil => rfl
  | cons x rest ih =>
    cases i with
    | zero =>
      simp only [List.getElem?_cons_zero, Option.some.injEq] at h
      rw [List.set_cons_zero, h]
    | succ i =>
      simp only [List.getElem?_cons_succ] at h
      rw [List.set_cons_succ, ih i h]

theorem kind_appendParam (obj : Object) (param : ObjRef) :
    (obj.appendParam param).kind = obj.kind := by
  obtain ⟨name, attrs⟩ := obj
  cases attrs <;> rfl

theorem isRoutine_appendParam (obj : Object) (param : ObjRef) :
    (obj.appendParam param).isRoutine = obj.isRoutine := by
  obtain ⟨name, attrs⟩ := obj
  cases attrs <;> rfl

theorem paramList_appendParam (obj : Object) (param : ObjRef) (h : obj.isRoutine = true) :
    (obj.appendParam param).paramList = obj.paramList ++ [param] := by
  obtain ⟨name, attrs⟩ := obj
  cases attrs <;> first | rfl | simp [Object.isRoutine] at h

theorem declareParameter_cases (obj : ObjRef) (s s1 : State)
    (h : declareParameter obj s = some s1) :
    ∃ (tab : Table) (cur : ScopeRef) (sc : Scope) (f : ObjRef) (fo : Object),
      s.symtab = some tab ∧ tab.currentScope = some cur ∧ s.scopes[cur]? = some sc
        ∧ sc.owner = some f ∧ s.objects[f]? = some fo
        ∧ s1 = { s with objects := s.objects.set f (fo.appendParam obj) } := by
  simp only [declareParameter] at h
  split at h
  · cases h
  · rename_i tab htab
    split at h
    · cases h
    · rename_i cur hcur
      split at h
      · cases h
      · rename_i sc hsc
        split at h
        · cases h
        · rename_i f hown
          split at h
          · cases h
          · rename_i fo hf
            refine ⟨tab, cur, sc, f, fo, htab, hcur, hsc, hown, hf, ?_⟩
            obtain ⟨name, attrs⟩ := fo
            cases attrs <;>
              simp only [Object.kind, addFuncParam, addProcParam, hf, setAttrs,
                addObject_eq_append, Option.some.injEq] at h <;>
              subst h <;>
              simp only [Object.appendParam] <;>
              first
                | rfl
                | (rw [set_eq_self_of_getElem? _ _ _ hf])

theorem declareObject_cases (obj : ObjRef) (s t : State) (h : declareObject obj s = some t) :
    ∃ (cur : ScopeRef) (sc : Scope) (o : Object),
      s.scopes[cur]? = some sc ∧ s.objects[obj]? = some o
        ∧ t.scopes = s.scopes.set cur { sc with objList := sc.objList ++ [obj] }
        ∧ ((o.kind ≠ .OBJ_PARAMETER ∧ t.objects = s.objects)
            ∨ (o.kind = .OBJ_PARAMETER ∧ ∃ (f : ObjRef) (fo : Object),
                sc.owner = some f ∧ s.objects[f]? = some fo
                  ∧ t.objects = s.objects.set f (fo.appendParam obj))) := by
  simp only [declareObject] at h
  split at h
  · cases h
  · rename_i o ho
    by_cases hk : o.kind = .OBJ_PARAMETER
    · rw [if_pos hk] at h
      split at h
      · cases h
      · rename_i s1 hs1
        obtain ⟨tab, cur, sc, f, fo, htab, hcur, hsc, hown, hf, rfl⟩ :=
          declareParameter_cases obj s s1 hs1
        simp only [htab, hcur, addScopeObject, hsc, addObject_eq_append,
          Option.some.injEq] at h
        subst h
        exact ⟨cur, sc, o, hsc, ho, rfl, Or.inr ⟨hk, f, fo, hown, hf, rfl⟩⟩
    · rw [if_neg hk] at h
      simp only at h
      split at h
      · cases h
      · rename_i tab htab
        split at h
        · cases h
        · rename_i cur hcur
          simp only [addScopeObject] at h
          split at h
          · cases h
          · rename_i sc hsc
            simp only [addObject_eq_append, Option.some.injEq] at h
            subst h
            exact ⟨cur, sc, o, hsc, ho, rfl, Or.inl ⟨hk, rfl⟩⟩

theorem isParameter_of_kind {s t : State} {a : ObjRef}
    (h : (t.objects[a]?).map Object.kind = (s.objects[a]?).map Object.kind) :
    t.isParameter a = s.isParameter a := by
  simp only [State.isParameter]
  cases ht : t.objects[a]? <;> cases hs : s.objects[a]? <;> simp_all

theorem getElem?_set_cases {α : Type} {l : List α} {i j : Nat} {a b x : α}
    (hi : l[i]? = some a) (h : (l.set i b)[j]? = some x) :
    (j = i ∧ x = b) ∨ (j ≠ i ∧ l[j]? = some x) := by
  by_cases hji : j = i
  · subst hji
    rw [getElem?_set_same l j a b hi] at h
    cases h
    exact Or.inl ⟨rfl, rfl⟩
  · rw [List.getElem?_set_ne (Ne.symm hji)] at h
    exact Or.inr ⟨hji, h⟩

theorem parametersOf_append_singleton (s : State) (objList : ObjectList) (obj : ObjRef) :
    s.parametersOf (objList ++ [obj])
      = s.parametersOf objList ++ (if s.isParameter obj = true then [obj] else []) := by
  simp only [State.parametersOf, List.filter_append]
  congr 1
  by_cases hp : s.isParameter obj = true
  · simp [List.filter, hp]
  · simp [List.filter, hp]

theorem dualInv_declare {s t : State} (obj : ObjRef) (cur : ScopeRef) (sc : Scope) (o : Object)
    (hsc : s.scopes[cur]? = some sc) (ho : s.objects[obj]? = some o)
    (hscopes : t.scopes = s.scopes.set cur { sc with objList := sc.objList ++ [obj] })
    (hobjs : (o.kind ≠ .OBJ_PARAMETER ∧ t.objects = s.objects)
      ∨ (o.kind = .OBJ_PARAMETER ∧ ∃ (f : ObjRef) (fo : Object),
          sc.owner = some f ∧ s.objects[f]? = some fo
            ∧ t.objects = s.objects.set f (fo.appendParam obj)))
    (h : DualInv s) : DualInv t := by
  have hlen : t.objects.length = s.objects.length := by
    rcases hobjs with ⟨_, he⟩ | ⟨_, f, fo, _, _, he⟩
    · rw [he]
    · rw [he, List.length_set]
  have hkinds : ∀ a : ObjRef,
      (t.objects[a]?).map Object.kind = (s.objects[a]?).map Object.kind := by
    intro a
    rcases hobjs with ⟨_, he⟩ | ⟨_, f, fo, _, hf, he⟩
    · rw [he]
    · rw [he]
      by_cases haf : a = f
      · subst haf
        rw [getElem?_set_same _ _ _ _ hf, hf]
        simp [kind_appendParam]
      · rw [List.getElem?_set_ne (Ne.symm haf)]
  have hpar : ∀ objList : ObjectList, t.parametersOf objList = s.parametersOf objList := by
    intro objList
    unfold State.parametersOf
    apply List.filter_congr
    intro a _
    exact isParameter_of_kind (hkinds a)
  have hisParam : s.isParameter obj = decide (o.kind = .OBJ_PARAMETER) := by
    simp [State.isParameter, ho]
  have hscope : ∀ (r : ScopeRef) (sc1 : Scope), t.scopes[r]? = some sc1 →
      (r = cur ∧ sc1 = { sc with objList := sc.objList ++ [obj] })
        ∨ (r ≠ cur ∧ s.scopes[r]? = some sc1) := by
    intro r sc1 hr
    rw [hscopes] at hr
    exact getElem?_set_cases hsc hr
  have howner : ∀ (r : ScopeRef) (sc1 : Scope), t.scopes[r]? = some sc1 →
      ∃ sc0 : Scope, s.scopes[r]? = some sc0 ∧ sc0.owner = sc1.owner := by
    intro r sc1 hr
    rcases hscope r sc1 hr with ⟨hrc, hnew⟩ | ⟨_, hold⟩
    · subst hrc
      subst hnew
      exact ⟨sc, hsc, rfl⟩
    · exact ⟨sc1, hold, rfl⟩
  constructor
  · intro r sc1 f1 fo1 hr hown hf hrout
    rw [hpar]
    rcases hscope r sc1 hr with ⟨hrc, hnew⟩ | ⟨hrc, hold⟩
    · subst hrc
      subst hnew
      simp only at hown ⊢
      rw [parametersOf_append_singleton, hisParam]
      rcases hobjs with ⟨hk, he⟩ | ⟨hk, f, fo, hownf, hfo, he⟩
      · rw [he] at hf
        rw [h.dual r sc f1 fo1 hsc hown hf hrout]
        simp [hk]
      · rw [hownf] at hown
        cases hown
        rw [he, getElem?_set_same _ _ _ _ hfo] at hf
        cases hf
        rw [isRoutine_appendParam] at hrout
        rw [paramList_appendParam fo obj hrout, h.dual r sc _ fo hsc hownf hfo hrout]
        simp [hk]
    · rcases hobjs with ⟨_, he⟩ | ⟨_, f, fo, hownf, hfo, he⟩
      · rw [he] at hf
        exact h.dual r sc1 f1 fo1 hold hown hf hrout
      · have hne : f1 ≠ f := by
          intro heq
          subst heq
          exact hrc (h.unique r cur sc1 sc f1 hold hsc hown hownf)
        rw [he, List.getElem?_set_ne (Ne.symm hne)] at hf
        exact h.dual r sc1 f1 fo1 hold hown hf hrout
  · intro r1 r2 sc1 sc2 f h1 h2 ho1 ho2
    obtain ⟨sa, hsa, hoa⟩ := howner r1 sc1 h1
    obtain ⟨sb, hsb, hob⟩ := howner r2 sc2 h2
    exact h.unique r1 r2 sa sb f hsa hsb (hoa.trans ho1) (hob.trans ho2)
  · intro r sc1 f hr hown
    obtain ⟨sa, hsa, hoa⟩ := howner r sc1 hr
    rw [hlen]
    exact h.ownerLive r sa f hsa (hoa.trans hown)
  · intro r sc1 a hr ha
    rw [hlen]
    rcases hscope r sc1 hr with ⟨hrc, hnew⟩ | ⟨_, hold⟩
    · subst hrc
      subst hnew
      simp only [List.mem_append, List.mem_singleton] at ha
      rcases ha with ha | ha
      · exact h.declLive r sc a hsc ha
      · subst ha
        exact lt_length_of_getElem? ho
    · exact h.declLive r sc1 a hold ha

theorem createProgramObject_eq (programName : String) (s : State) (tab : Table)
    (htab : s.symtab = some tab) :
    createProgramObject programName s = some (s.objects.length,
      { s with
        objects :=
          s.objects ++ [{ name := programName, attrs := .progAttrs (some s.scopes.length) }],
        scopes := s.scopes ++ [{ objList := [], owner := some s.objects.length, outer := none }],
        symtab := some { tab with program := some s.objects.length } }) := by
  simp [createProgramObject, allocObject, createScope, setAttrs, htab, getElem?_append_length,
    set_append_length, List.getElem?_cons_zero, -List.getElem?_eq_getElem]

theorem dualInv_of_eq (s t : State) (hobj : t.objects = s.objects) (hsc : t.scopes = s.scopes)
    (h : DualInv s) : DualInv t :=
  dualInv_append_objects s t [] (by rw [hobj, List.append_nil]) hsc h

theorem dualInv_step (op : Op) (s t : State) (hfresh : op.freshOwner s = true)
    (happ : op.apply s = some t) (h : DualInv s) : DualInv t := by
  cases op with
  | createProgramObject programName =>
    simp only [Op.apply, Option.map_eq_some'] at happ
    obtain ⟨r, hr, rfl⟩ := happ
    cases htab : s.symtab with
    | none => simp [createProgramObject, allocObject, createScope, setAttrs, htab] at hr
    | some tab =>
      rw [createProgramObject_eq programName s tab htab] at hr
      cases hr
      obtain ⟨u, hu, huo, hus⟩ : ∃ u : State, DualInv u
          ∧ u.objects = s.objects
              ++ [{ name := programName, attrs := .progAttrs (some s.scopes.length) }]
          ∧ u.scopes = s.scopes :=
        ⟨{ s with
            objects := s.objects
              ++ [{ name := programName, attrs := .progAttrs (some s.scopes.length) }] },
          dualInv_append_objects s _ [_] rfl rfl h, rfl, rfl⟩
      refine dualInv_append_scope u _ (some s.objects.length) none (by rw [huo]) (by rw [hus])
        ?_ ?_ ?_ hu
      · intro f hf
        cases hf
        rw [huo]
        simp
      · intro f hf r sc hr hown
        cases hf
        rw [hus] at hr
        exact Nat.lt_irrefl _ (h.ownerLive r sc _ hr hown)
      · intro f hf fo hfo hrout
        cases hf
        rw [huo] at hfo
        simp only [getElem?_append_length, List.getElem?_cons_zero, Option.some.injEq] at hfo
        subst hfo
        simp [Object.isRoutine] at hrout
  | createConstantObject name =>
    simp only [Op.apply, createConstantObject, allocObject, Option.some.injEq] at happ
    subst happ
    exact dualInv_append_objects s _ [_] rfl rfl h
  | createTypeObject name =>
    simp only [Op.apply, createTypeObject, allocObject, Option.some.injEq] at happ
    subst happ
    exact dualInv_append_objects s _ [_] rfl rfl h
  | createVariableObject name =>
    simp only [Op.apply, createVariableObject, Option.map_eq_some'] at happ
    obtain ⟨r, hr, rfl⟩ := happ
    split at hr
    · cases hr
    · simp only [allocObject, Option.some.injEq] at hr
      subst hr
      exact dualInv_append_objects s _ [_] rfl rfl h
  | createFunctionObject name =>
    simp only [Op.apply, createFunctionObject, allocObject, Option.some.injEq] at happ
    subst happ
    exact dualInv_append_objects s _ [_] rfl rfl h
  | createProcedureObject name =>
    simp only [Op.apply, createProcedureObject, allocObject, Option.some.injEq] at happ
    subst happ
    exact dualInv_append_objects s _ [_] rfl rfl h
  | createParameterObject name kind owner =>
    simp only [Op.apply, createParameterObject, allocObject, Option.some.injEq] at happ
    subst happ
    exact dualInv_append_objects s _ [_] rfl rfl h
  | createScope owner outer =>
    simp only [Op.apply, createScope, Option.some.injEq] at happ
    subst happ
    cases owner with
    | none =>
      refine dualInv_append_scope s _ none outer rfl rfl ?_ ?_ ?_ h
      · intro f hf
        cases hf
      · intro f hf
        cases hf
      · intro f hf
        cases hf
    | some owner =>
      simp only [Op.freshOwner] at hfresh
      split at hfresh
      · cases hfresh
      · rename_i ownerObj hownerObj
        simp only [Bool.and_eq_true, List.isEmpty_iff, List.all_eq_true, decide_eq_true_eq]
          at hfresh
        obtain ⟨hempty, hall⟩ := hfresh
        refine dualInv_append_scope s _ (some owner) outer rfl rfl ?_ ?_ ?_ h
        · intro f hf
          cases hf
          exact lt_length_of_getElem? hownerObj
        · intro f hf r sc hr
          cases hf
          exact hall sc (List.getElem?_mem hr)
        · intro f hf fo hfo _
          cases hf
          rw [hownerObj] at hfo
          cases hfo
          exact hempty
  | declareObject obj =>
    obtain ⟨cur, sc, o, hsc, ho, hscopes, hobjs⟩ := declareObject_cases obj s t happ
    exact dualInv_declare obj cur sc o hsc ho hscopes hobjs h
  | enterBlock scope =>
    simp only [Op.apply, enterBlock] at happ
    split at happ
    · cases happ
    · cases happ
      exact dualInv_of_eq s _ rfl rfl h
  | exitBlock =>
    simp only [Op.apply, exitBlock] at happ
    split at happ
    · cases happ
    · split at happ
      · cases happ
      · split at happ
        · cases happ
        · cases happ
          exact dualInv_of_eq s _ rfl rfl h

theorem dualInv_run (ops : List Op) (s t : State) (hinv : DualInv s)
    (h : runFresh ops s = some t) : DualInv t := by
  induction ops generalizing s with
  | nil =>
    simp only [runFresh, Option.some.injEq] at h
    subst h
    exact hinv
  | cons op rest ih =>
    simp only [runFresh] at h
    split at h
    · rename_i hfresh
      cases happ : op.apply s with
      | none => simp [happ] at h
      | some s1 =>
        simp only [happ, Option.some_bind] at h
        exact ih s1 (dualInv_step op s s1 hfresh happ hinv) h
    · cases h

theorem dualInv_initSymTab (s0 s : State) (hs0 : s0.scopes = []) (h : initSymTab s0 = some s) :
    DualInv s := by
  rw [initSymTab_eq] at h
  cases h
  constructor <;> intro r <;> simp [hs0]

/-- C11, on the code: right after `initSymTab` from the empty memory the
built-in `WRITEI` (cell 2) has the parameter list `[3]` and `WRITEC` (cell 4)
the parameter list `[5]`, while no scope cell exists: neither has a body scope
and neither parameter is in a declaration list. A scope created for `WRITEI`
afterwards declares no parameter while the parameter list holds one, and in
the run `twoBodyScopes` the function `F` has the parameter list `[9]` while
the second scope it owns declares no parameter. The runs start with the
unassigned `currentScope` holding the address 5, which plays no part. -/
theorem dualMembership_counterexample :
    (afterInitSymTab State.empty (some 5)).map
          (fun s => (s.objects[2]?).map Object.paramList) = some (some [3])
      ∧ (afterInitSymTab State.empty (some 5)).map
          (fun s => (s.objects[4]?).map Object.paramList) = some (some [5])
      ∧ (afterInitSymTab State.empty (some 5)).map State.scopes = some []
      ∧ ((afterInitSymTab State.empty (some 5)).bind
            (runOps false [.createProgramObject "PRG", .createScope (some 2) none])).map
          (fun s => (s.objects[2]?).map Object.paramList) = some (some [3])
      ∧ ((afterInitSymTab State.empty (some 5)).bind
            (runOps false [.createProgramObject "PRG", .createScope (some 2) none])).map
          (fun s => s.scopes[1]?) = some (some { objList := [], owner := some 2, outer := none })
      ∧ ((afterInitSymTab State.empty (some 5)).bind
            (runOps false [.createProgramObject "PRG", .createScope (some 2) none])).map
          State.dualMembership = some false
      ∧ ((afterInitSymTab State.empty (some 5)).bind (runOps false twoBodyScopes)).map
          (fun s => (s.objects[8]?).map Object.paramList) = some (some [9])
      ∧ ((afterInitSymTab State.empty (some 5)).bind (runOps false twoBodyScopes)).map
          (fun s => s.scopes[1]?) = some (some { objList := [9], owner := some 8, outer := some 0 })
      ∧ ((afterInitSymTab State.empty (some 5)).bind (runOps false twoBodyScopes)).map
          (fun s => s.scopes[2]?) = some (some { objList := [], owner := some 8, outer := some 0 })
      ∧ ((afterInitSymTab State.empty (some 5)).bind (runOps false twoBodyScopes)).map
          State.dualMembership = some false := by
  decide

/-- C11, amended: right after an `initSymTab` called while no scope exists,
the built-ins `WRITEI` and `WRITEC` each have one parameter in their parameter
list and no scope exists. In every state reached from there, whatever the
unassigned `currentScope` holds, by the object constructors, `declareObject`,
`enterBlock`, `exitBlock`, and `createScope(owner, outer)` called only with a
null owner or an owner that is an object cell owning no scope yet and having
no parameter yet, no two scopes are owned by the same object, and for every
scope owned by a function or a procedure the parameter list of the routine and the
parameter objects of the declaration list of that scope are the same objects
in the same order, hence of the same number. -/
theorem dualMembership_of_freshOwner (s0 : State) (held : Option ScopeRef) (ops : List Op)
    (s : State) (hs0 : s0.scopes = [])
    (h : (afterInitSymTab s0 held).bind (runFresh ops) = some s) :
    (∀ (r : ScopeRef) (sc : Scope) (f : ObjRef) (fo : Object),
        s.scopes[r]? = some sc → sc.owner = some f → s.objects[f]? = some fo →
          fo.isRoutine = true →
            fo.paramList = s.parametersOf sc.objList
              ∧ fo.paramList.length = (s.parametersOf sc.objList).length)
      ∧ (∀ (r1 r2 : ScopeRef) (sc1 sc2 : Scope) (f : ObjRef),
          s.scopes[r1]? = some sc1 → s.scopes[r2]? = some sc2 →
            sc1.owner = some f → sc2.owner = some f → r1 = r2)
      ∧ s.dualMembership = true
      ∧ (afterInitSymTab s0 held).map State.scopes = some []
      ∧ (afterInitSymTab s0 held).map
          (fun s1 => (s1.objects[s0.objects.length + 2]?).map Object.name)
            = some (some "WRITEI")
      ∧ (afterInitSymTab s0 held).map
          (fun s1 => (s1.objects[s0.objects.length + 2]?).map Object.paramList)
            = some (some [s0.objects.length + 3])
      ∧ (afterInitSymTab s0 held).map
          (fun s1 => (s1.objects[s0.objects.length + 4]?).map Object.name)
            = some (some "WRITEC")
      ∧ (afterInitSymTab s0 held).map
          (fun s1 => (s1.objects[s0.objects.length + 4]?).map Object.paramList)
            = some (some [s0.objects.length + 5]) := by
  have hbuilt : (afterInitSymTab s0 held).map State.scopes = some []
      ∧ (afterInitSymTab s0 held).map
          (fun s1 => (s1.objects[s0.objects.length + 2]?).map Object.name)
            = some (some "WRITEI")
      ∧ (afterInitSymTab s0 held).map
          (fun s1 => (s1.objects[s0.objects.length + 2]?).map Object.paramList)
            = some (some [s0.objects.length + 3])
      ∧ (afterInitSymTab s0 held).map
          (fun s1 => (s1.objects[s0.objects.length + 4]?).map Object.name)
            = some (some "WRITEC")
      ∧ (afterInitSymTab s0 held).map
          (fun s1 => (s1.objects[s0.objects.length + 4]?).map Object.paramList)
            = some (some [s0.objects.length + 5]) := by
    rw [afterInitSymTab_eq]
    simp only [Option.map_some', hs0, getElem?_append_add, List.getElem?_cons_succ,
      List.getElem?_cons_zero, Object.paramList, true_and]
  cases hinit : afterInitSymTab s0 held with
  | none => simp [hinit] at h
  | some s1 =>
    simp only [hinit, Option.some_bind] at h
    have hstart : DualInv s1 := by
      rw [afterInitSymTab_eq] at hinit
      cases hinit
      constructor <;> intro r <;> simp [hs0]
    have hinv := dualInv_run ops s1 s hstart h
    rw [hinit] at hbuilt
    refine ⟨?_, hinv.unique, ?_, hbuilt⟩
    · intro r sc f fo hr hown hf hrout
      have heq := hinv.dual r sc f fo hr hown hf hrout
      exact ⟨heq, by rw [heq]⟩
    · simp only [State.dualMembership, List.all_eq_true]
      intro sc hmem
      obtain ⟨r, hr⟩ := List.getElem?_of_mem hmem
      simp only [State.dualAt]
      split
      · rfl
      · rename_i f hown
        split
        · rfl
        · rename_i fo hf
          cases hrout : fo.isRoutine with
          | false => rfl
          | true => simpa using hinv.dual r sc f fo hr hown hf hrout

theorem dualMembership_of_freshOwner_witness :
    (State.empty.scopes = []
        ∧ (afterInitSymTab State.empty (some 5)).bind (runFresh sampleRun)
            = some sampleRunResult)
      ∧ (∀ (r : ScopeRef) (sc : Scope) (f : ObjRef) (fo : Object),
          sampleRunResult.scopes[r]? = some sc → sc.owner = some f →
            sampleRunResult.objects[f]? = some fo → fo.isRoutine = true →
              fo.paramList = sampleRunResult.parametersOf sc.objList
                ∧ fo.paramList.length = (sampleRunResult.parametersOf sc.objList).length)
      ∧ (∀ (r1 r2 : ScopeRef) (sc1 sc2 : Scope) (f : ObjRef),
          sampleRunResult.scopes[r1]? = some sc1 → sampleRunResult.scopes[r2]? = some sc2 →
            sc1.owner = some f → sc2.owner = some f → r1 = r2)
      ∧ sampleRunResult.dualMembership = true
      ∧ (afterInitSymTab State.empty (some 5)).map State.scopes = some []
      ∧ (afterInitSymTab State.empty (some 5)).map
          (fun s1 => (s1.objects[State.empty.objects.length + 2]?).map Object.name)
            = some (some "WRITEI")
      ∧ (afterInitSymTab State.empty (some 5)).map
          (fun s1 => (s1.objects[State.empty.objects.length + 2]?).map Object.paramList)
            = some (some [State.empty.objects.length + 3])
      ∧ (afterInitSymTab State.empty (some 5)).map
          (fun s1 => (s1.objects[State.empty.objects.length + 4]?).map Object.name)
            = some (some "WRITEC")
      ∧ (afterInitSymTab State.empty (some 5)).map
          (fun s1 => (s1.objects[State.empty.objects.length + 4]?).map Object.paramList)
            = some (some [State.empty.objects.length + 5]) :=
  ⟨⟨rfl, by decide⟩,
    dualMembership_of_freshOwner State.empty (some 5) sampleRun sampleRunResult rfl
      (by decide)⟩

end SymTab
